import Mathlib

/-!
# Verification of the Typedown compiler core

Shallow embedding of the parts of the Typedown compiler (a Markdown dialect
compiler with typed data blocks) that the specification's claims are about:

* `src/typedown/core/base/identifiers.py` — the identifier spectrum
  (`Identifier.parse`, `Handle` / `Hash` / `UUID`);
* `src/typedown/core/base/types.py` — `ReferenceMeta` / `Ref[T]` metadata;
* `src/typedown/core/base/errors.py` — error codes, levels, diagnostics,
  `DiagnosticReport`;
* `src/typedown/core/analysis/query.py` — the query engine
  (`resolve_string`, `resolve_query`, `_resolve_symbol_path`,
  `_traverse_property_path`, `evaluate_data`);
* `src/typedown/core/analysis/validator.py` — the global validator
  (`validate`, `_resolve_entity`, `_check_semantic_types`,
  `_check_field_annotation`);
* `src/typedown/core/compiler.py` — `Compiler.compile`'s diagnostics gate;
* `src/typedown/commands/check.py` — the progressive `check` command driver.

The modules `typedown.core.graph` (DependencyGraph), `typedown.core.parser.desugar`
(Desugarer), `typedown.core.base.symbol_table` (SymbolTable) and
`typedown.core.ast.blocks` (EntityBlock) are imported by the sources above but
are not part of the source tree; where needed they are modelled from the
specification and marked as such in their doc comments.

Python data values are embedded as the inductive `Value`; machine-level detail
that cannot affect the verified properties (CPython attribute lookup on builtin
containers, Unicode character classes beyond ASCII) is documented at each
definition.

All string algorithms are written over `List Char` so that every definition
reduces inside the kernel (`decide` / `rfl` on concrete inputs).
-/

/-! ## Python string helpers -/

/-- The whitespace characters stripped by Python's `str.strip()` and by
`int(_, 16)` (modelled for the common ASCII whitespace characters). -/
def pyWhitespace (c : Char) : Bool :=
  c = ' ' || c = '\t' || c = '\n' || c = '\r' || c = '\x0b' || c = '\x0c'

/-- Drop the given leading and trailing characters from a character list. -/
def trimEnds (p : Char → Bool) (cs : List Char) : List Char :=
  ((cs.dropWhile p).reverse.dropWhile p).reverse

/-- Python `str.strip()`: drop leading and trailing whitespace. -/
def pyStrip (s : String) : String :=
  ⟨trimEnds pyWhitespace s.data⟩

/-- Whether `pat` is an initial segment of `cs`. -/
def listIsInit : List Char → List Char → Bool
  | [], _ => true
  | _ :: _, [] => false
  | p :: ps, c :: cs => p = c && listIsInit ps cs

/-- If `pat` is an initial segment of `cs`, return the remainder. -/
def dropInit : List Char → List Char → Option (List Char)
  | [], cs => some cs
  | _ :: _, [] => none
  | p :: ps, c :: cs => if p = c then dropInit ps cs else none

/-- Worker for `replaceList`; `fuel` bounds the number of steps so the
recursion is structural (one input character is consumed per step, so
`cs.length` fuel is exact). -/
def replaceGo (pat rep : List Char) : Nat → List Char → List Char
  | _, [] => []
  | 0, cs => cs
  | fuel + 1, c :: rest =>
    match dropInit pat (c :: rest) with
    | some rem => rep ++ replaceGo pat rep fuel rem
    | none => c :: replaceGo pat rep fuel rest

/-- Python `str.replace(pat, rep)` over character lists: replace every
(leftmost, non-overlapping) occurrence of `pat` by `rep`.  An empty
pattern leaves the list unchanged (the sources never use one). -/
def replaceList (pat rep : List Char) (cs : List Char) : List Char :=
  match pat with
  | [] => cs
  | _ :: _ => replaceGo pat rep cs.length cs

/-- Hexadecimal digit test (Python `int(_, 16)` digit alphabet). -/
def isHexDigitChar (c : Char) : Bool :=
  c.isDigit || ('a' ≤ c && c ≤ 'f') || ('A' ≤ c && c ≤ 'F')

/-- Tail of a hexadecimal digit run in Python's `int(_, 16)`:
single underscores are allowed between digits, not trailing. -/
def hexRunTail : List Char → Bool
  | [] => true
  | '_' :: c :: rest => isHexDigitChar c && hexRunTail rest
  | '_' :: [] => false
  | c :: rest => isHexDigitChar c && hexRunTail rest

/-- A hexadecimal digit run: at least one digit, then `hexRunTail`. -/
def hexRun : List Char → Bool
  | [] => false
  | c :: rest => isHexDigitChar c && hexRunTail rest

/-- Digits of Python `int(s, 16)` after sign and optional `0x` base marker.
After a `0x` marker one underscore may separate the marker from the digits. -/
def hexAfterSign : List Char → Bool
  | '0' :: 'x' :: rest =>
      (match rest with
       | '_' :: rest2 => hexRun rest2
       | _ => hexRun rest)
  | '0' :: 'X' :: rest =>
      (match rest with
       | '_' :: rest2 => hexRun rest2
       | _ => hexRun rest)
  | cs => hexRun cs

/-- Success predicate of Python `int(s, 16)`: optional surrounding
whitespace, optional sign, optional `0x`/`0X` marker, hex digits with
single interior underscores. -/
def pyIntHexOk (cs : List Char) : Bool :=
  let cs := trimEnds pyWhitespace cs
  let cs := match cs with
    | '+' :: r => r
    | '-' :: r => r
    | r => r
  hexAfterSign cs

/-! ## Identifiers (`core/base/identifiers.py`) -/

/-- Success predicate of Python `uuid.UUID(raw)` as used by `_is_uuid`
(identifiers.py, lines 162-168): the constructor deletes every `urn:` and
`uuid:` substring, strips `{`/`}` from both ends, deletes every `-`,
requires exactly 32 remaining characters, and parses them with
`int(_, 16)`. -/
def isUuid (s : String) : Bool :=
  let cs := replaceList "uuid:".data [] (replaceList "urn:".data [] s.data)
  let cs := trimEnds (fun c => c = '{' || c = '}') cs
  let cs := cs.filter (fun c => c ≠ '-')
  cs.length = 32 && pyIntHexOk cs

/-- The identifier spectrum of `identifiers.py`: `Handle` (L1, scope
dependent), `Hash` (L0, `sha256:` content address), `UUID` (L3).
Each variant stores the `raw` string plus its payload field. -/
inductive Identifier where
  | handle (raw name : String)
  | hash (raw hashValue : String)
  | uuid (raw uuidValue : String)
  deriving DecidableEq, Repr

/-- `Identifier.__str__` (identifiers.py, lines 45-46): returns `raw`. -/
def Identifier.str : Identifier → String
  | .handle raw _ => raw
  | .hash raw _ => raw
  | .uuid raw _ => raw

/-- `Identifier.parse` (identifiers.py, lines 51-78): strip the input;
`sha256:`-led strings become `Hash`, UUID-format strings become `UUID`,
everything else becomes `Handle`. -/
def Identifier.parse (raw : String) : Identifier :=
  let t : String := pyStrip raw
  if listIsInit "sha256:".data t.data then .hash t ⟨t.data.drop 7⟩
  else if isUuid t then .uuid t t
  else .handle t t

/-- The two-kind classifier stated by the specification's words for claim C5:
`sha256:`-led strings are `Hash`, every other string is an `Id` (`Handle`). -/
def parseSpecTwoKinds (raw : String) : Identifier :=
  let t : String := pyStrip raw
  if listIsInit "sha256:".data t.data then .hash t ⟨t.data.drop 7⟩
  else .handle t t

/-- Three-kind classifier following the amended claim C5: `sha256:`-led
strings are `Hash`; otherwise UUID-format strings are `UUID`; everything
else is `Handle`. -/
def parseSpecThreeKinds (raw : String) : Identifier :=
  let t : String := pyStrip raw
  if listIsInit "sha256:".data t.data then .hash t ⟨t.data.drop 7⟩
  else if isUuid t then .uuid t t
  else .handle t t

/-! ## Diagnostics (`core/base/errors.py`) -/

/-- Severity levels of `ErrorLevel` (errors.py, lines 18-23). -/
inductive ELevel where
  | error
  | warning
  | info
  | hint
  deriving DecidableEq, Repr

/-- The error codes of `ErrorCode` (errors.py, lines 29-79) that the claims
mention; the full catalogue is a plain enumeration and the remaining codes
play no role in the verified properties. -/
inductive ECode where
  | E0341
  | E0342
  | E0343
  | E0361
  | E0362
  | E0363
  | E0364
  | E0365
  | E0224
  deriving DecidableEq, Repr

/-- `ErrorCode.default_level` (errors.py, lines 113-118): `E0224` is a
warning, every other code defaults to `error`. -/
def ECode.defaultLevel : ECode → ELevel
  | .E0224 => .warning
  | _ => .error

/-- A structured detail value inside `Diagnostic.details`: the sources
store strings and lists of strings in the claims' diagnostics. -/
inductive DetailValue where
  | s (v : String)
  | slist (vs : List String)
  deriving DecidableEq, Repr

/-- A diagnostic as collected by `DiagnosticReport` (errors.py): code,
level, message and the structured `details` mapping. -/
structure Diagnostic where
  code : ECode
  level : ELevel
  message : String
  details : List (String × DetailValue)
  deriving DecidableEq, Repr

/-- The exceptions raised by the query engine: `QueryError` carries code
`E0365`, `ReferenceError` carries code `E0341` (errors.py, lines 267-288). -/
inductive QErr where
  | queryError (msg : String)
  | referenceError (msg : String)
  deriving DecidableEq, Repr

/-- The error code attached to a query-engine exception. -/
def QErr.code : QErr → ECode
  | .queryError _ => .E0365
  | .referenceError _ => .E0341

/-- The message attached to a query-engine exception. -/
def QErr.msg : QErr → String
  | .queryError m => m
  | .referenceError m => m

/-! ## Python data values -/

/-- Embedded Python values flowing through the query engine and the
validator: `None`, booleans, integers, strings, lists, dicts (as
association lists in insertion order), and entity blocks as they appear
when a reference resolves to a registered `EntityBlock` (id, class name,
`raw_data`, optional `resolved_data`).  CPython attribute lookup on
builtin containers and blocks (bound methods, the location object, …) yields
host-level objects that entity data never contains; they are embedded
opaquely as `vhost` values carrying a description only. -/
inductive Value where
  | vnone
  | vbool (b : Bool)
  | vint (n : Int)
  | vstr (s : String)
  | vlist (items : List Value)
  | vdict (fields : List (String × Value))
  | vblock (id className : String) (rawData : Value) (resolvedData : Option Value)
  | vhost (desc : String)

/-- Whether an embedded value is Python `None` (`val is None`). -/
def Value.isNone : Value → Bool
  | .vnone => true
  | _ => false

/-- Python truthiness of an embedded value (`if value:`): `None`, `False`,
`0`, empty strings and empty containers are falsy; entity blocks are
truthy. -/
def pyTruthy : Value → Bool
  | .vnone => false
  | .vbool b => b
  | .vint n => decide (n ≠ 0)
  | .vstr s => !s.data.isEmpty
  | .vlist xs => !xs.isEmpty
  | .vdict kvs => !kvs.isEmpty
  | .vblock _ _ _ _ => true
  | .vhost _ => true

/-- The error code of a failed query result, if any. -/
def resultCode : Except QErr Value → Option ECode
  | .ok _ => none
  | .error e => some e.code


/-! ## Reference pattern `\[\[(.*?)\]\]` (`query.py`, line 18) -/

/-- Scan for the first `]]` closer; returns the characters before it and
the characters after it.  Fails on a newline, because `.` in the Python
pattern does not match `\n`. -/
def findClose : List Char → Option (List Char × List Char)
  | [] => none
  | c :: rest =>
    if c = '\n' then none
    else if c = ']' then
      match rest with
      | c2 :: rest2 =>
          if c2 = ']' then some ([], rest2)
          else (findClose rest).map (fun p => (c :: p.1, p.2))
      | [] => none
    else (findClose rest).map (fun p => (c :: p.1, p.2))

/-- `REF_PATTERN.fullmatch(text)`: the whole string is `[[…]]` — at least
four characters, led by `[[`, ended by `]]`, with no newline between; on
success the forced capture group is the text between the delimiters. -/
def refFullmatch (s : String) : Option String :=
  if 4 ≤ s.data.length
      && listIsInit ['[', '['] s.data
      && listIsInit [']', ']'] s.data.reverse
      && ((s.data.drop 2).take (s.data.length - 4)).all (fun c => c ≠ '\n') then
    some ⟨(s.data.drop 2).take (s.data.length - 4)⟩
  else
    none

/-- `REF_PATTERN.search(text)` as a Boolean: some position starts `[[` and
a `]]` closer follows with no intervening newline.  `fuel` makes the scan
structural; one character is consumed per step. -/
def hasRefGo : Nat → List Char → Bool
  | _, [] => false
  | 0, _ => false
  | fuel + 1, c :: rest =>
    if c = '[' then
      match rest with
      | c2 :: rest2 =>
          if c2 = '[' then (findClose rest2).isSome || hasRefGo fuel rest
          else hasRefGo fuel rest
      | [] => hasRefGo fuel rest
    else hasRefGo fuel rest

/-- Whether the string contains a `[[…]]` occurrence. -/
def hasRef (s : String) : Bool := hasRefGo s.data.length s.data

/-- `REF_PATTERN.sub(repl, text)`: replace each leftmost, non-overlapping
`[[…]]` occurrence by `repl` applied to its capture group.  `fuel` makes
the scan structural; one character is consumed per step. -/
def subGo (repl : String → String) : Nat → List Char → List Char
  | _, [] => []
  | 0, cs => cs
  | fuel + 1, c :: rest =>
    if c = '[' then
      match rest with
      | c2 :: rest2 =>
          if c2 = '[' then
            match findClose rest2 with
            | some p => (repl ⟨p.1⟩).data ++ subGo repl fuel p.2
            | none => c :: subGo repl fuel rest
          else c :: subGo repl fuel rest
      | [] => c :: subGo repl fuel rest
    else c :: subGo repl fuel rest

/-- `REF_PATTERN.match(s)` anchored at the start (used on `former` values
in `validator.py`): if the string begins with `[[` and a closer follows,
return the capture group. -/
def refMatchAtStart (s : String) : Option String :=
  match s.data with
  | '[' :: '[' :: rest => (findClose rest).map (fun p => (⟨p.1⟩ : String))
  | _ => none

/-! ## Symbol table

Modelled from the spec: `typedown.core.base.symbol_table` is imported by the
validator and the compiler but is not part of the source tree.  Per the
specification (§3, §4.C) it maintains a scoped name index and a global
content-hash index; the query engine dispatches to `resolve_handle`,
`resolve_hash` and `resolve_uuid` and the validator uses dict-style `get`
and membership.  The scope-walk over ancestor directories is irrelevant to
the verified claims, so the name index is modelled flat. -/

/-- Modelled from the spec: the symbol table's three lookup indices.
Registered entities appear in `handles` as `Value.vblock` entries. -/
structure SymbolTable where
  handles : List (String × Value)
  hashes : List (String × Value)
  uuids : List (String × Value)

/-- `SymbolTable.resolve_handle` (modelled from the spec, flat index). -/
def SymbolTable.resolveHandle (st : SymbolTable) (name : String) : Option Value :=
  st.handles.lookup name

/-- `SymbolTable.resolve_hash` (modelled from the spec). -/
def SymbolTable.resolveHash (st : SymbolTable) (h : String) : Option Value :=
  st.hashes.lookup h

/-- `SymbolTable.resolve_uuid` (modelled from the spec). -/
def SymbolTable.resolveUuid (st : SymbolTable) (u : String) : Option Value :=
  st.uuids.lookup u

/-- `SymbolTable.get` / `in` (modelled from the spec): dict-style lookup
by registered id, as used by `symbol_table.get(value)` and
`target_id in symbol_table` in `validator.py`. -/
def SymbolTable.get (st : SymbolTable) (key : String) : Option Value :=
  st.handles.lookup key

/-! ## Property-path traversal (`query.py`, `_traverse_property_path`) -/

/-- `\w` of Python's `re`, modelled for the ASCII range: letters, digits
and underscore. -/
def isWordChar (c : Char) : Bool := c.isAlphanum || c = '_'

/-- Numeric value of a (non-empty) decimal digit run. -/
def digitsToNat (ds : List Char) : Nat :=
  ds.foldl (fun a c => a * 10 + (c.toNat - '0'.toNat)) 0

/-- Whether a character list starts with the given character. -/
def headIs (c : Char) : List Char → Bool
  | [] => false
  | x :: _ => x = c

/-- Drop a single trailing newline, if present: without `re.MULTILINE`
Python's `$` anchor matches at the end of the string or just before one
final newline. -/
def dropTrailingNl (cs : List Char) : List Char :=
  if cs.getLast? = some '\n' then cs.dropLast else cs

/-- The anchor-free core of `PART_PATTERN`: a non-empty word-character
run, optionally followed by a bracketed digit run, consuming the whole
list; returns the name group and the optional index. -/
def partMatchCore (cs : List Char) : Option (String × Option Nat) :=
  let name := cs.takeWhile isWordChar
  let rest := cs.dropWhile isWordChar
  if name.isEmpty then none
  else if rest.isEmpty then some (⟨name⟩, none)
  else if headIs '[' rest then
    let ds := rest.tail.takeWhile Char.isDigit
    let r2 := rest.tail.dropWhile Char.isDigit
    if ds.isEmpty then none
    else if r2 = [']'] then some (⟨name⟩, some (digitsToNat ds))
    else none
  else none

/-- `PART_PATTERN = ^(\w+)(?:\[(\d+)\])?$` (query.py, line 373): the
core run, with `$` tolerating one trailing newline (no pattern element
matches `\n`, so a match on a newline-terminated segment is exactly a
core match on the segment minus its final newline). -/
def partMatch (s : String) : Option (String × Option Nat) :=
  partMatchCore (dropTrailingNl s.data)

/-- `getattr(v, "resolved_data", None)` on an embedded value: only entity
blocks carry the attribute. -/
def getattrResolvedData : Value → Option Value
  | .vblock _ _ _ r => r
  | _ => none

/-- `getattr(v, "raw_data", None)` on an embedded value. -/
def getattrRawData : Value → Option Value
  | .vblock _ _ raw _ => some raw
  | _ => none

/-- The final-`*` unwrap of `_traverse_property_path` (query.py, lines
378-386): return `resolved_data` if truthy, else `raw_data` if truthy,
else the node itself. -/
def starUnwrap (cur : Value) : Value :=
  let r := (getattrResolvedData cur).getD .vnone
  let w := (getattrRawData cur).getD .vnone
  if pyTruthy r then r else if pyTruthy w then w else cur

/-- The attribute names of a CPython `dict` instance (CPython 3.11's
surface; `hasattr` is true on a dict exactly for these). -/
def pyDictAttrNames : List String :=
  ["__class__", "__class_getitem__", "__contains__", "__delattr__",
   "__delitem__", "__dir__", "__doc__", "__eq__", "__format__", "__ge__",
   "__getattribute__", "__getitem__", "__getstate__", "__gt__", "__hash__",
   "__init__", "__init_subclass__", "__ior__", "__iter__", "__le__",
   "__len__", "__lt__", "__ne__", "__new__", "__or__", "__reduce__",
   "__reduce_ex__", "__repr__", "__reversed__", "__ror__", "__setattr__",
   "__setitem__", "__sizeof__", "__str__", "__subclasshook__", "clear",
   "copy", "fromkeys", "get", "items", "keys", "pop", "popitem",
   "setdefault", "update", "values"]

/-- The attribute names of a CPython `list` instance (CPython 3.11). -/
def pyListAttrNames : List String :=
  ["__add__", "__class__", "__class_getitem__", "__contains__",
   "__delattr__", "__delitem__", "__dir__", "__doc__", "__eq__",
   "__format__", "__ge__", "__getattribute__", "__getitem__",
   "__getstate__", "__gt__", "__hash__", "__iadd__", "__imul__",
   "__init__", "__init_subclass__", "__iter__", "__le__", "__len__",
   "__lt__", "__mul__", "__ne__", "__new__", "__reduce__",
   "__reduce_ex__", "__repr__", "__reversed__", "__rmul__",
   "__setattr__", "__setitem__", "__sizeof__", "__str__",
   "__subclasshook__", "append", "clear", "copy", "count", "extend",
   "index", "insert", "pop", "remove", "reverse", "sort"]

/-- The attribute names of a CPython `str` instance (CPython 3.11). -/
def pyStrAttrNames : List String :=
  ["__add__", "__class__", "__contains__", "__delattr__", "__dir__",
   "__doc__", "__eq__", "__format__", "__ge__", "__getattribute__",
   "__getitem__", "__getnewargs__", "__getstate__", "__gt__", "__hash__",
   "__init__", "__init_subclass__", "__iter__", "__le__", "__len__",
   "__lt__", "__mod__", "__mul__", "__ne__", "__new__", "__reduce__",
   "__reduce_ex__", "__repr__", "__rmod__", "__rmul__", "__setattr__",
   "__sizeof__", "__str__", "__subclasshook__", "capitalize", "casefold",
   "center", "count", "encode", "endswith", "expandtabs", "find",
   "format", "format_map", "index", "isalnum", "isalpha", "isascii",
   "isdecimal", "isdigit", "isidentifier", "islower", "isnumeric",
   "isprintable", "isspace", "istitle", "isupper", "join", "ljust",
   "lower", "lstrip", "maketrans", "partition", "removeprefix",
   "removesuffix", "replace", "rfind", "rindex", "rjust", "rpartition",
   "rsplit", "rstrip", "split", "splitlines", "startswith", "strip",
   "swapcase", "title", "translate", "upper", "zfill"]

/-- The attribute names of CPython `int` and `bool` instances (identical
surfaces in CPython 3.11). -/
def pyIntAttrNames : List String :=
  ["__abs__", "__add__", "__and__", "__bool__", "__ceil__", "__class__",
   "__delattr__", "__dir__", "__divmod__", "__doc__", "__eq__",
   "__float__", "__floor__", "__floordiv__", "__format__", "__ge__",
   "__getattribute__", "__getnewargs__", "__getstate__", "__gt__",
   "__hash__", "__index__", "__init__", "__init_subclass__", "__int__",
   "__invert__", "__le__", "__lshift__", "__lt__", "__mod__", "__mul__",
   "__ne__", "__neg__", "__new__", "__or__", "__pos__", "__pow__",
   "__radd__", "__rand__", "__rdivmod__", "__reduce__", "__reduce_ex__",
   "__repr__", "__rfloordiv__", "__rlshift__", "__rmod__", "__rmul__",
   "__ror__", "__round__", "__rpow__", "__rrshift__", "__rshift__",
   "__rsub__", "__rtruediv__", "__rxor__", "__setattr__", "__sizeof__",
   "__str__", "__sub__", "__subclasshook__", "__truediv__", "__trunc__",
   "__xor__", "as_integer_ratio", "bit_count", "bit_length", "conjugate",
   "denominator", "from_bytes", "imag", "numerator", "real", "to_bytes"]

/-- The attribute names of the CPython `None` object (CPython 3.11). -/
def pyNoneAttrNames : List String :=
  ["__bool__", "__class__", "__delattr__", "__dir__", "__doc__", "__eq__",
   "__format__", "__ge__", "__getattribute__", "__getstate__", "__gt__",
   "__hash__", "__init__", "__init_subclass__", "__le__", "__lt__",
   "__ne__", "__new__", "__reduce__", "__reduce_ex__", "__repr__",
   "__setattr__", "__sizeof__", "__str__", "__subclasshook__"]

/-- The attribute names of a CPython bound-method object (CPython 3.11),
used for attribute lookup on `vhost` values. -/
def pyBoundMethodAttrNames : List String :=
  ["__call__", "__class__", "__delattr__", "__dir__", "__doc__", "__eq__",
   "__format__", "__ge__", "__getattribute__", "__getstate__", "__gt__",
   "__hash__", "__init__", "__init_subclass__", "__le__", "__lt__",
   "__module__", "__name__", "__ne__", "__new__", "__qualname__",
   "__reduce__", "__reduce_ex__", "__repr__", "__self__", "__setattr__",
   "__sizeof__", "__str__", "__subclasshook__", "__text_signature__"]

/-- Modelled from the spec: the attribute surface of an `EntityBlock`
beyond the four data slots the traversal reads.  The class itself
(`typedown.core.ast.blocks`, a pydantic model) is not in the source tree;
per the specification (§3) its further fields are the declared class
name's companions — location, body text, former ids, content hash — and,
being a pydantic `BaseModel`, it also exposes the pydantic/object
machinery, represented here by the usual names.  Their values are
host-level objects of no further relevance to the claims and are
embedded opaquely. -/
def entityBlockAttrNames : List String :=
  ["location", "body", "former_ids", "content_hash", "model_fields",
   "model_config", "model_dump", "model_dump_json", "model_copy",
   "model_validate", "dict", "json", "copy", "__class__", "__delattr__",
   "__dict__", "__dir__", "__doc__", "__eq__", "__fields__", "__format__",
   "__ge__", "__getattribute__", "__getstate__", "__gt__", "__hash__",
   "__init__", "__init_subclass__", "__le__", "__lt__", "__ne__",
   "__new__", "__reduce__", "__reduce_ex__", "__repr__", "__setattr__",
   "__sizeof__", "__str__", "__subclasshook__"]

/-- Attribute access `getattr(cur, name)` guarded by `hasattr`
(query.py, lines 415-417): entity blocks expose `id`, `class_name`,
`raw_data` and `resolved_data` as the modelled data (an unset
`resolved_data` is the attribute holding `None`, so `hasattr` is still
true) plus the remaining `entityBlockAttrNames`; builtin containers and
scalars expose their CPython attribute names; every such non-data
attribute value (a bound method, the location object, …) is an opaque
host object. -/
def pyAttr (v : Value) (name : String) : Option Value :=
  match v with
  | .vblock i c raw r =>
      if name = "id" then some (.vstr i)
      else if name = "class_name" then some (.vstr c)
      else if name = "raw_data" then some raw
      else if name = "resolved_data" then some ((r).getD .vnone)
      else if entityBlockAttrNames.contains name then
        some (.vhost ("EntityBlock." ++ name))
      else none
  | .vdict _ =>
      if pyDictAttrNames.contains name then some (.vhost ("dict." ++ name)) else none
  | .vlist _ =>
      if pyListAttrNames.contains name then some (.vhost ("list." ++ name)) else none
  | .vstr _ =>
      if pyStrAttrNames.contains name then some (.vhost ("str." ++ name)) else none
  | .vint _ =>
      if pyIntAttrNames.contains name then some (.vhost ("int." ++ name)) else none
  | .vbool _ =>
      if pyIntAttrNames.contains name then some (.vhost ("bool." ++ name)) else none
  | .vnone =>
      if pyNoneAttrNames.contains name then some (.vhost ("NoneType." ++ name)) else none
  | .vhost _ =>
      if pyBoundMethodAttrNames.contains name then some (.vhost ("method." ++ name)) else none

/-- Field lookup of a path segment (query.py, lines 398-417): on the
first step a node's `resolved_data`/`raw_data` dict is transparent; then
plain dict lookup; then the `hasattr`/`getattr` fallback (`pyAttr`), so
a missing dict key whose name collides with a dict attribute resolves to
the attribute instead of failing. -/
def stepName (first : Bool) (cur : Value) (name : String) : Option Value :=
  let rd := (getattrResolvedData cur).getD .vnone
  let wd := (getattrRawData cur).getD .vnone
  let fromNode : Option Value :=
    if first then
      match rd with
      | .vdict kvs =>
          (match kvs.lookup name with
           | some v => some v
           | none =>
               match wd with
               | .vdict k2 => k2.lookup name
               | _ => none)
      | _ =>
          match wd with
          | .vdict k2 => k2.lookup name
          | _ => none
    else none
  match fromNode with
  | some v => some v
  | none =>
      match cur with
      | .vdict kvs =>
          (match kvs.lookup name with
           | some v => some v
           | none => pyAttr cur name)
      | _ => pyAttr cur name

/-- `_traverse_property_path` (query.py, lines 361-433), segment by
segment.  `first` is true on the first segment (index `i == 0`).  The
initial unwrap of linker variable wrappers (`type == "variable"`) concerns
`AttributeWrapper` values, which do not occur in the entity data the
claims are about, and is not represented. -/
def traverseGo (first : Bool) (cur : Value) : List String → Except QErr Value
  | [] => .ok cur
  | part :: rest =>
    if part = "*" then
      if rest.isEmpty then .ok (starUnwrap cur)
      else .error (.queryError "Invalid query: '*' must be the final segment")
    else
      match partMatch part with
      | none => .error (.queryError ("Invalid path segment: '" ++ part ++ "'"))
      | some (name, idx?) =>
          match stepName first cur name with
          | none => .error (.queryError ("Segment '" ++ name ++ "' not found"))
          | some v =>
              match idx? with
              | none => traverseGo false v rest
              | some idx =>
                  match v with
                  | .vlist xs =>
                      (match xs.get? idx with
                       | some w => traverseGo false w rest
                       | none => .error (.queryError ("Index out of range in segment '" ++ part ++ "'")))
                  | _ => .error (.queryError ("Segment '" ++ name ++ "' is not a list"))

/-- Public entry of the property-path traversal. -/
def traversePropertyPath (cur : Value) (path : List String) : Except QErr Value :=
  traverseGo true cur path

/-! ## Query resolution (`query.py`) -/

/-- `_resolve_by_identifier` (query.py, lines 330-357): dispatch on the
identifier kind; a missing symbol raises `ReferenceError`. -/
def resolveByIdentifier (st : SymbolTable) (idf : Identifier) : Except QErr Value :=
  match idf with
  | .hash _ hv =>
      (match st.resolveHash hv with
       | some v => .ok v
       | none => .error (.referenceError ("Hash not found: " ++ idf.str)))
  | .handle _ name =>
      (match st.resolveHandle name with
       | some v => .ok v
       | none => .error (.referenceError ("L1 Match failed: Handle '" ++ idf.str ++ "' not found in current context.")))
  | .uuid _ uv =>
      (match st.resolveUuid uv with
       | some v => .ok v
       | none => .error (.referenceError ("UUID not found: " ++ idf.str)))

/-- Python `str.split(sep)` over character lists for a one-character
separator (keeps empty pieces, as Python does). -/
def splitOnChar (sep : Char) : List Char → List (List Char)
  | [] => [[]]
  | c :: rest =>
    let r := splitOnChar sep rest
    if c = sep then [] :: r
    else
      match r with
      | h :: t => (c :: h) :: t
      | [] => [[c]]

/-- `_resolve_symbol_path` (query.py, lines 273-328): split the query at
dots into a root and a property path (a dot-free query is the root with
an empty path, exactly what `split` yields), parse the root as an
identifier, resolve it, then traverse the property path. -/
def resolveSymbolPath (st : SymbolTable) (q : String) : Except QErr Value :=
  let pieces := splitOnChar '.' q.data
  let root : String := ⟨pieces.headD []⟩
  let props : List String := (pieces.tail).map (fun l => (⟨l⟩ : String))
  match resolveByIdentifier st (Identifier.parse root) with
  | .error e => .error e
  | .ok cur =>
      if props.isEmpty then .ok cur
      else traverseGo true cur props

/-- `resolve_query` (query.py, lines 192-262) for the engine as the
validator constructs it — `QueryEngine(symbol_table)` with `root_dir =
None` and empty `resources`, so the resource and dynamic-file steps
contribute nothing.  Exceptions from the symbol-path step are swallowed;
a `None` result is not collected. -/
def resolveQuery (st : SymbolTable) (q : String) : List Value :=
  match resolveSymbolPath st q with
  | .ok v => if v.isNone then [] else [v]
  | .error _ => []

/-! ## Stringification (`str(val)` in the interpolation replacer) -/

mutual

/-- Python `repr` of an embedded value, as called by `str` on containers.
String escaping inside `repr` and the `repr` of entity blocks (pydantic
models) are modelled nominally; the claims only stringify scalars. -/
def pyRepr : Value → String
  | .vnone => "None"
  | .vbool b => if b then "True" else "False"
  | .vint n => toString n
  | .vstr s => "'" ++ s ++ "'"
  | .vlist xs => "[" ++ pyReprItems xs ++ "]"
  | .vdict kvs => "\x7b" ++ pyReprFields kvs ++ "\x7d"
  | .vblock i c _ _ => c ++ "(id=" ++ i ++ ")"
  | .vhost d => "<" ++ d ++ ">"

/-- `repr` of list items, comma separated. -/
def pyReprItems : List Value → String
  | [] => ""
  | [v] => pyRepr v
  | v :: rest => pyRepr v ++ ", " ++ pyReprItems rest

/-- `repr` of dict fields, comma separated. -/
def pyReprFields : List (String × Value) → String
  | [] => ""
  | [(k, v)] => "'" ++ k ++ "': " ++ pyRepr v
  | (k, v) :: rest => "'" ++ k ++ "': " ++ pyRepr v ++ ", " ++ pyReprFields rest

end

/-- Python `str` of an embedded value. -/
def pyStr : Value → String
  | .vstr s => s
  | .vbool b => if b then "True" else "False"
  | .vnone => "None"
  | .vint n => toString n
  | v => pyRepr v

/-! ## String resolution (`resolve_string`, query.py lines 151-190) -/

/-- The interpolation replacer (query.py, lines 180-187): resolve the
occurrence; splice `str` of the first result, or leave the original
`[[…]]` text intact when resolution returns nothing.  The embedded
`resolveQuery` is total, so the `except` arm of the source (which also
restores the original text) has no separate representation. -/
def interpolationReplacer (st : SymbolTable) (inner : String) : String :=
  match resolveQuery st inner with
  | v :: _ => pyStr v
  | [] => "[[" ++ inner ++ "]]"

/-- `resolve_string`: a string that is entirely `[[…]]` resolves exactly
(raising `ReferenceError` when nothing is found); a string containing
`[[…]]` occurrences has each occurrence individually resolved,
stringified and spliced; other strings pass through unchanged. -/
def resolveString (st : SymbolTable) (text : String) : Except QErr Value :=
  match refFullmatch text with
  | some query =>
      (match resolveQuery st query with
       | [] => .error (.referenceError ("Reference not found: '" ++ query ++ "'"))
       | v :: _ => .ok v)
  | none =>
      if hasRef text then
        .ok (.vstr ⟨subGo (interpolationReplacer st) text.data.length text.data⟩)
      else .ok (.vstr text)

/-! ## Data evaluation (`evaluate_data`, query.py lines 130-149) -/

mutual

/-- `evaluate_data`: recursively walk the data and resolve every string
through `resolve_string`; the first raised error propagates. -/
def evaluateData (st : SymbolTable) : Value → Except QErr Value
  | .vdict kvs =>
      (match evalFields st kvs with
       | .ok kvs2 => .ok (.vdict kvs2)
       | .error e => .error e)
  | .vlist xs =>
      (match evalItems st xs with
       | .ok xs2 => .ok (.vlist xs2)
       | .error e => .error e)
  | .vstr s => resolveString st s
  | v => .ok v

/-- `evaluate_data` over dict fields, in insertion order. -/
def evalFields (st : SymbolTable) : List (String × Value) → Except QErr (List (String × Value))
  | [] => .ok []
  | (k, v) :: rest =>
      (match evaluateData st v with
       | .error e => .error e
       | .ok v2 =>
          match evalFields st rest with
          | .error e => .error e
          | .ok rest2 => .ok ((k, v2) :: rest2))

/-- `evaluate_data` over list items, in order. -/
def evalItems (st : SymbolTable) : List Value → Except QErr (List Value)
  | [] => .ok []
  | v :: rest =>
      (match evaluateData st v with
       | .error e => .error e
       | .ok v2 =>
          match evalItems st rest with
          | .error e => .error e
          | .ok rest2 => .ok (v2 :: rest2))

end

/-! ## Reference metadata (`core/base/types.py`) -/

/-- `ReferenceMeta` (types.py, lines 7-29): the declared target types of a
`Ref[T]` / `Ref[T₁, T₂, …]` annotation, in declaration order. -/
structure ReferenceMeta where
  targetTypes : List String
  deriving DecidableEq, Repr

/-- `ReferenceMeta.target_type` (types.py, line 15): the primary target —
the first declared type (kept for backwards compatibility), `None` when
the tuple is empty. -/
def ReferenceMeta.targetType (m : ReferenceMeta) : Option String :=
  m.targetTypes.head?

/-- `ReferenceMeta.matches` (types.py, lines 27-29): membership of a class
name in the full admissible set (polymorphic support). -/
def ReferenceMeta.mtch (m : ReferenceMeta) (className : String) : Bool :=
  m.targetTypes.contains className

/-- The slice of Python type annotations inspected by
`_check_field_annotation`: `Ref[…] = Annotated[str, ReferenceMeta(…)]`,
`List[…]`, and everything else. -/
inductive Annot where
  | plain
  | refAnnot (meta : ReferenceMeta)
  | listOf (elem : Annot)
  deriving DecidableEq, Repr

/-! ## Validator diagnostics (`validator_error` with the templates of
`errors.py`) -/

/-- The `E0362` diagnostic of `_check_field_annotation` (validator.py,
lines 384-391): `validator_error(E0362, field=…, expected=…, value=…,
actual=…)`, whose kwargs become `details`. -/
def e0362Diag (field expected value actual : String) : Diagnostic :=
  ⟨.E0362, .error,
    "Type mismatch: field '" ++ field ++ "' expects Ref[" ++ expected
      ++ "], but '" ++ value ++ "' is '" ++ actual ++ "'",
    [("field", .s field), ("expected", .s expected),
     ("value", .s value), ("actual", .s actual)]⟩

/-- The `E0341` diagnostic of `_resolve_entity` (validator.py, lines
347-352): `validator_error(E0341, details=str(e))`. -/
def e0341Diag (e : QErr) : Diagnostic :=
  ⟨.E0341, .error, "Cannot resolve reference: " ++ e.msg,
    [("details", .s e.msg)]⟩

/-- The `E0343` diagnostic of `_resolve_entity` (validator.py, lines
331-335): `validator_error(E0343, target=…)`. -/
def e0343Diag (target : String) : Diagnostic :=
  ⟨.E0343, .error, "Evolution target not found: '" ++ target ++ "'",
    [("target", .s target)]⟩

/-- The `E0342` diagnostic produced when the validator catches the
graph's `CycleError` and appends it (validator.py, lines 88-100).
`CycleError.__init__` (errors.py, lines 255-264) sets
`details = {"cycle": message, **kwargs}`, so the `cycle` kwarg carried by
the error (the cycle path, per the spec for `typedown.core.graph`)
overrides the message string. -/
def cycleDiag (cyc : List String) : Diagnostic :=
  ⟨.E0342, .error,
    "Circular dependency detected: " ++ String.intercalate " -> " cyc,
    [("cycle", .slist cyc)]⟩

/-! ## Semantic reference typing (`validator.py`, lines 356-399) -/

mutual

/-- `_check_field_annotation` (validator.py, lines 374-399): for a
`Ref`-annotated field whose resolved value is a string, look the string
up in the symbol table; if an entity is found and its class name differs
from the **primary** target type (`meta.target_type`), emit `E0362`.
For `List[…]` annotations, recurse into list values. -/
def checkFieldAnnot (st : SymbolTable) (fieldName : String) :
    Annot → Value → List Diagnostic
  | .refAnnot meta, value =>
      (match meta.targetType with
       | none => []
       | some tt =>
          match value with
          | .vstr s =>
              (match st.get s with
               | some (.vblock _ cls _ _) =>
                   if cls ≠ tt then [e0362Diag fieldName tt s cls] else []
               | _ => [])
          | _ => [])
  | .listOf a, value =>
      (match value with
       | .vlist xs => checkFieldList st fieldName a xs
       | _ => [])
  | .plain, _ => []

/-- `_check_field_annotation` mapped over the items of a list value. -/
def checkFieldList (st : SymbolTable) (fieldName : String) (a : Annot) :
    List Value → List Diagnostic
  | [] => []
  | v :: rest => checkFieldAnnot st fieldName a v ++ checkFieldList st fieldName a rest

end

/-- A model schema as `_check_semantic_types` consumes it: the ordered
`model_fields` with their annotations (`model_cls.model_fields`). -/
def ModelFields : Type := List (String × Annot)

/-- `_check_semantic_types` (validator.py, lines 356-372): for every
declared field present in the entity's `resolved_data` with a truthy
value, run `_check_field_annotation`. -/
def checkSemanticTypes (st : SymbolTable) (fields : List (String × Annot))
    (resolvedData : Value) : List Diagnostic :=
  match resolvedData with
  | .vdict kvs =>
      fields.foldl (fun acc fa =>
        match kvs.lookup fa.1 with
        | some v => if pyTruthy v then acc ++ checkFieldAnnot st fa.1 fa.2 v else acc
        | none => acc) []
  | _ => []

/-! ## Desugaring

Modelled from the spec: `typedown.core.parser.desugar` (`Desugarer.desugar`)
is imported by the validator but is not part of the source tree.  Per the
specification (§4.B step 4) it rewrites the YAML artefact in which a bare
reference `[[x]]` was parsed as a nested singleton list back into the
string `"[[x]]"`, recursing through dicts and lists. -/

mutual

/-- Modelled from the spec: `Desugarer.desugar`. -/
def desugar : Value → Value
  | .vdict kvs => .vdict (desugarFields kvs)
  | .vlist [.vlist [.vstr s]] => .vstr ("[[" ++ s ++ "]]")
  | .vlist xs => .vlist (desugarItems xs)
  | v => v

/-- `desugar` over dict fields. -/
def desugarFields : List (String × Value) → List (String × Value)
  | [] => []
  | (k, v) :: rest => (k, desugar v) :: desugarFields rest

/-- `desugar` over list items. -/
def desugarItems : List Value → List Value
  | [] => []
  | v :: rest => desugar v :: desugarItems rest

end

/-! ## Entity blocks

Modelled from the spec: `typedown.core.ast.blocks` (`EntityBlock`) is
imported by the validator but is not part of the source tree.  Per the
specification (§3) an entity block carries a declared class name, a
declared id, `former` evolution ids, and its `raw_data` mapping;
`resolved_data` is an output slot and is returned functionally here. -/

/-- Modelled from the spec: an `EntityBlock` as the validator consumes it. -/
structure EntityBlock where
  id : String
  className : String
  formerIds : List String
  rawData : Value

/-- The model registry as `_resolve_model_class` consumes it: class name
to declared field annotations.  The lexical-scope shortcut through the
symbol table resolves to the same schema object and is not represented
(the missing `SymbolTable` module stores models wrapped, not the entity
values modelled here). -/
def ModelRegistry : Type := List (String × List (String × Annot))

/-- The `former`-pointer phase of `_resolve_entity` (validator.py, lines
304-335), applied to the desugared data: a `former` value has its `[[…]]`
wrapper stripped and must resolve to an `EntityBlock`, else `E0343`;
`former` is a pure pointer and merges nothing.  A non-string `former`
value would crash CPython's `re.match` before this logic runs and is
modelled as skipping the check. -/
def formerCheck (st : SymbolTable) (d0 : Value) : List Diagnostic :=
  match d0 with
  | .vdict kvs =>
      (match kvs.lookup "former" with
       | some (.vstr fv) =>
           (match st.get ((refMatchAtStart fv).getD fv) with
            | some (.vblock _ _ _ _) => []
            | _ => [e0343Diag ((refMatchAtStart fv).getD fv)])
       | _ => [])
  | _ => []

/-- `_resolve_entity`, continued: after the `former` check, resolve all
references through `evaluate_data` — on success store the substituted
payload and run the semantic type check, on failure record `E0341` and
fall back to the desugared raw data.  Returns the appended diagnostics
and the final `resolved_data`. -/
def resolveEntity (st : SymbolTable) (registry : ModelRegistry)
    (e : EntityBlock) : List Diagnostic × Value :=
  match evaluateData st (desugar e.rawData) with
  | .ok r =>
      (formerCheck st (desugar e.rawData) ++
        (match registry.lookup e.className with
         | some fields => checkSemanticTypes st fields r
         | none => []), r)
  | .error err =>
      (formerCheck st (desugar e.rawData) ++ [e0341Diag err], desugar e.rawData)

/-! ## Dependency graph and topological order

Modelled from the spec: `typedown.core.graph` (`DependencyGraph`) is
imported by the validator but is not part of the source tree.  Per the
specification (§4.E) it is a directed graph over entity ids with
`add_edge`, Kahn's-algorithm `topological_sort` with ties broken by
ascending id, and a `CycleError` carrying the cycle path. -/

/-- Append a dependency edge `u → v` (`u` depends on `v`) to an
adjacency association list. -/
def addDep : List (String × List String) → String → String → List (String × List String)
  | [], u, v => [(u, [v])]
  | (k, ds) :: rest, u, v =>
      if k = u then (k, ds ++ [v]) :: rest else (k, ds) :: addDep rest u v

/-- Ensure a node exists in the adjacency list. -/
def ensureNode : List (String × List String) → String → List (String × List String)
  | [], u => [(u, [])]
  | (k, ds) :: rest, u =>
      if k = u then (k, ds) :: rest else (k, ds) :: ensureNode rest u

/-- The dependency targets recorded for a node. -/
def depsOf (g : List (String × List String)) (u : String) : List String :=
  (g.lookup u).getD []

/-- All nodes of the graph: keys plus referenced targets, first
occurrences kept. -/
def gNodes (g : List (String × List String)) : List String :=
  (g.map Prod.fst ++ (g.map Prod.snd).flatten).eraseDups

/-- Code-point lexicographic comparison of character lists (Python string
ordering for the ids compared here). -/
def charListLt : List Char → List Char → Bool
  | [], [] => false
  | [], _ :: _ => true
  | _ :: _, [] => false
  | a :: as, b :: bs =>
      if a.toNat < b.toNat then true
      else if b.toNat < a.toNat then false
      else charListLt as bs

/-- Code-point lexicographic string comparison. -/
def strLt (a b : String) : Bool := charListLt a.data b.data

/-- The minimum of a list of strings (ascending-id tie-breaking). -/
def minString (l : List String) : Option String :=
  l.foldl (fun acc s =>
    match acc with
    | none => some s
    | some m => if strLt s m then some s else some m) none

/-- Modelled from the spec: walk dependency edges inside the remaining
(cyclic) node set until a node repeats, producing a cycle path such as
`["A", "B", "A"]`. -/
def walkCycle (g : List (String × List String)) (remaining : List String) :
    Nat → List String → String → List String
  | 0, _, cur => [cur]
  | fuel + 1, pathRev, cur =>
      if pathRev.contains cur then
        ((pathRev.takeWhile (fun x => x ≠ cur)) ++ [cur]).reverse ++ [cur]
      else
        match ((depsOf g cur).filter (fun v => remaining.contains v)).head? with
        | none => [cur]
        | some nxt => walkCycle g remaining fuel (cur :: pathRev) nxt

/-- Modelled from the spec: extract one cycle from the remaining node set
after Kahn's algorithm stalls. -/
def extractCycle (g : List (String × List String)) (remaining : List String) : List String :=
  match minString remaining with
  | none => []
  | some s => walkCycle g remaining (remaining.length + 1) [] s

/-- Modelled from the spec: one round of Kahn's algorithm — pick the
smallest remaining node all of whose dependencies are settled; stall
means a cycle. `fuel` makes the recursion structural (one node is
removed per step). -/
def kahnGo (g : List (String × List String)) :
    Nat → List String → List String → Except (List String) (List String)
  | 0, remaining, acc =>
      if remaining.isEmpty then .ok acc.reverse else .error (extractCycle g remaining)
  | fuel + 1, remaining, acc =>
      if remaining.isEmpty then .ok acc.reverse
      else
        let ready := remaining.filter
          (fun u => ((depsOf g u).filter (fun v => remaining.contains v)).isEmpty)
        match minString ready with
        | none => .error (extractCycle g remaining)
        | some u => kahnGo g fuel (remaining.erase u) (u :: acc)

/-- Modelled from the spec: `DependencyGraph.topological_sort` —
dependencies first, ties by ascending id; a cycle yields `CycleError`
carrying the cycle path. -/
def topologicalSort (g : List (String × List String)) : Except (List String) (List String) :=
  kahnGo g (gNodes g).length (gNodes g) []

/-- The graph-building loop of `Validator.validate` (validator.py, lines
57-85): for every entity with a non-empty id, strip the `[[…]]` wrapper
from each `former` id and add a dependency edge when the target is
registered in the symbol table; always ensure the entity's node exists. -/
def buildGraph (st : SymbolTable) (entities : List EntityBlock) :
    List (String × List String) :=
  entities.foldl (fun g e =>
    if e.id = "" then g
    else
      let g2 := e.formerIds.foldl (fun g fid =>
          let target := (refMatchAtStart fid).getD fid
          if (st.get target).isSome then addDep g e.id target else g) g
      ensureNode g2 e.id) []

/-- `entities_by_id[node_id]` (validator.py): entities with empty ids are
skipped; a duplicate id keeps the last-inserted entity, as a Python dict
does. -/
def entityForId (entities : List EntityBlock) (i : String) : Option EntityBlock :=
  ((entities.filter (fun e => e.id == i && e.id != "")).reverse).head?

/-- `Validator.validate` (validator.py, lines 48-110): build the
`former`-edge graph, topologically sort it — a `CycleError` is appended
as the single diagnostic and validation stops — and otherwise resolve
every ordered entity, appending its diagnostics. -/
def validate (st : SymbolTable) (registry : ModelRegistry)
    (entities : List EntityBlock) : List Diagnostic :=
  match topologicalSort (buildGraph st entities) with
  | .error cyc => [cycleDiag cyc]
  | .ok order =>
      order.foldl (fun diags nid =>
        match entityForId entities nid with
        | some e => diags ++ (resolveEntity st registry e).1
        | none => diags) []

/-! ## Compile gate (`compiler.py`) and check driver (`commands/check.py`) -/

/-- `DiagnosticReport.has_errors` (errors.py, lines 360-362): true iff
some diagnostic has level `error`. -/
def hasErrors (diags : List Diagnostic) : Bool :=
  diags.any (fun d => d.level = .error)

/-- The tail of `Compiler.compile` (compiler.py, lines 108-114) as a
function of the collected diagnostics: specs run only when `run_specs`
is set and no error-level diagnostic exists, and the compile passes iff
no error-level diagnostic exists.  Returns `(specsRun, passed)`. -/
def compileGate (runSpecs : Bool) (diags : List Diagnostic) : Bool × Bool :=
  (runSpecs && !hasErrors diags, !hasErrors diags)

/-- The four progressive stages, in their fixed order (check.py, line 102). -/
def checkStages : List String := ["syntax", "structure", "local", "global"]

/-- The stage-selection logic of `check` (check.py, lines 89-100):
default `local`; `--fast` forces `structure`, `--full` forces `global`;
otherwise an explicit stage must be one of the four or the command exits
with code 2 (modelled as `Except Unit`). -/
def determineTargetStage (stage? : Option String) (fast full : Bool) : Except Unit String :=
  if fast then .ok "structure"
  else if full then .ok "global"
  else
    match stage? with
    | some s => if checkStages.contains s then .ok s else .error ()
    | none => .ok "local"

/-- The fail-fast stage loop of `check` (check.py, lines 110-116): run
stages in order, stop after the first failure; returns the stages
actually executed. -/
def runStagesLoop (results : String → Bool) : List String → List String
  | [] => []
  | s :: rest => if results s then s :: runStagesLoop results rest else [s]

/-- The `check` command driver (check.py, lines 89-142): select the
target stage, run the prefix of the fixed stage order up to it with
fail-fast, exit 0 when every executed stage passed, 1 otherwise, and 2
on an unknown stage argument.  `results` abstracts the per-stage
compiler calls of `_run_stage`.  Returns `(exit code, executed stages)`. -/
def checkCommand (stage? : Option String) (fast full : Bool)
    (results : String → Bool) : Nat × List String :=
  match determineTargetStage stage? fast full with
  | .error _ => (2, [])
  | .ok target =>
      let toRun := checkStages.take (checkStages.indexOf target + 1)
      let executed := runStagesLoop results toRun
      ((if executed.all results then 0 else 1), executed)

/-! ## Declarative shapes used by the claims -/

/-- The declarative segment shape claimed by C10, over a character list:
either a non-empty run of word characters, or such a run followed by a
bracketed non-empty digit run. -/
def segShapeCore (cs : List Char) : Prop :=
  (cs ≠ [] ∧ ∀ c ∈ cs, isWordChar c = true)
  ∨ (∃ name ds : List Char,
      name ≠ [] ∧ (∀ c ∈ name, isWordChar c = true)
      ∧ ds ≠ [] ∧ (∀ c ∈ ds, c.isDigit = true)
      ∧ cs = name ++ '[' :: (ds ++ [']']))

/-- The shape exactly as claim C10 words it: the segment consists solely
of word characters optionally followed by a bracketed index. -/
def segShape (s : String) : Prop := segShapeCore s.data

/-- The shape the program's pattern actually accepts: the claimed shape
after discounting at most one trailing newline (Python's `$`). -/
def segShapeNl (s : String) : Prop :=
  ∃ t : List Char, (s.data = t ∨ s.data = t ++ ['\n']) ∧ segShapeCore t

/-- A piece of interpolation text that contains no bracket and no
newline, so that `[[…]]` occurrence boundaries are unambiguous. -/
def cleanPiece (x : String) : Bool :=
  x.data.all (fun c => c ≠ '[' && c ≠ ']' && c ≠ '\n')

/-- A string assembled from literal/reference pairs followed by a final
literal: `lit₁[[q₁]]lit₂[[q₂]]…tail`. -/
def mixedText : List (String × String) → String → String
  | [], tail => tail
  | (lit, q) :: rest, tail => lit ++ "[[" ++ q ++ "]]" ++ mixedText rest tail

/-- The same assembly with every reference occurrence replaced by the
interpolation replacer's output (the stringified resolution, or the
original `[[…]]` text when resolution finds nothing). -/
def splicedText (st : SymbolTable) : List (String × String) → String → String
  | [], tail => tail
  | (lit, q) :: rest, tail => lit ++ interpolationReplacer st q ++ splicedText st rest tail

/-! ## Claims C5 and C6: identifier parsing -/

/-- C5 (counterexample): the claim says every string without the `sha256:`
prefix parses to an `Id` (`Handle`).  The canonical UUID string parses to
the third kind `UUID` instead, so parsing has three kinds, not two. -/
theorem c5_two_kinds_counterexample :
    Identifier.parse "550e8400-e29b-41d4-a716-446655440000"
      = .uuid "550e8400-e29b-41d4-a716-446655440000"
          "550e8400-e29b-41d4-a716-446655440000"
    ∧ listIsInit "sha256:".data "550e8400-e29b-41d4-a716-446655440000".data = false
    ∧ Identifier.parse "550e8400-e29b-41d4-a716-446655440000"
        ≠ parseSpecTwoKinds "550e8400-e29b-41d4-a716-446655440000" := by
  refine ⟨by decide, by decide, by decide⟩

/-- C5 (amended): identifier parsing is context-free and classifies every
raw string into exactly three kinds — after stripping surrounding
whitespace, a `sha256:`-led string parses to `Hash`, a UUID-format string
parses to `UUID`, and every other string (including bare names and names
containing `/`, `-`, `.`) parses to `Handle`. -/
theorem c5_parse_classification (s : String) :
    Identifier.parse s = parseSpecThreeKinds s
    ∧ ((listIsInit "sha256:".data (pyStrip s).data = true ∧
      Identifier.parse s = .hash (pyStrip s) ⟨(pyStrip s).data.drop 7⟩)
    ∨ (listIsInit "sha256:".data (pyStrip s).data = false ∧
        isUuid (pyStrip s) = true ∧
        Identifier.parse s = .uuid (pyStrip s) (pyStrip s))
    ∨ (listIsInit "sha256:".data (pyStrip s).data = false ∧
        isUuid (pyStrip s) = false ∧
        Identifier.parse s = .handle (pyStrip s) (pyStrip s))) := by
  refine ⟨rfl, ?_⟩
  unfold Identifier.parse
  by_cases h1 : listIsInit "sha256:".data (pyStrip s).data = true
  · exact Or.inl ⟨h1, by simp [h1]⟩
  · by_cases h2 : isUuid (pyStrip s) = true
    · exact Or.inr (Or.inl ⟨by simpa using h1, h2, by simp [h1, h2]⟩)
    · exact Or.inr (Or.inr ⟨by simpa using h1, by simpa using h2, by simp [h1, h2]⟩)

/-- C6 (counterexample): the claim says `parse` round-trips via
`to_string` for any identifier string; `parse` strips surrounding
whitespace, so a string with a trailing blank does not round-trip. -/
theorem c6_roundtrip_counterexample :
    (Identifier.parse "alice ").str = "alice" ∧ "alice" ≠ "alice " := by
  exact ⟨by decide, by decide⟩

/-- C6 (amended): `parse` is pure (a total function in this embedding) and
`to_string` of the parsed identifier yields the input stripped of
surrounding whitespace; in particular every string without surrounding
whitespace round-trips exactly. -/
theorem c6_parse_roundtrip (q : String) :
    (Identifier.parse q).str = pyStrip q
    ∧ (pyStrip q = q → (Identifier.parse q).str = q) := by
  have base : (Identifier.parse q).str = pyStrip q := by
    unfold Identifier.parse
    by_cases h1 : listIsInit "sha256:".data (pyStrip q).data = true
    · simp [h1, Identifier.str]
    · by_cases h2 : isUuid (pyStrip q) = true <;>
        simp [h1, h2, Identifier.str]
  exact ⟨base, fun h => by rw [base, h]⟩

/-- C6 (witness): the round-trip law applied at the concrete input
`"alice"`, which has no surrounding whitespace. -/
theorem c6_parse_roundtrip_witness : (Identifier.parse "alice").str = "alice" :=
  (c6_parse_roundtrip "alice").2 (by decide)

/-! ## Claim C1: Ref[T] target-type checking -/

/-- C1 (counterexample): for a polymorphic `Ref["User", "Admin"]` field
whose resolved target has class `Admin` — a member of the admissible set —
the validator still emits `E0362`, because `_check_field_annotation`
compares against `meta.target_type` (the primary type) instead of the
admissible set. -/
theorem c1_polymorphic_counterexample :
    checkFieldAnnot ⟨[("bob", .vblock "bob" "Admin" (.vdict []) none)], [], []⟩
      "owner" (.refAnnot ⟨["User", "Admin"]⟩) (.vstr "bob")
      = [e0362Diag "owner" "User" "bob" "Admin"]
    ∧ ReferenceMeta.mtch ⟨["User", "Admin"]⟩ "Admin" = true := by
  exact ⟨rfl, by decide⟩

/-- C1 (amended): the validator checks each string-valued `Ref`-annotated
field whose value resolves in the symbol table to an entity block against
the **primary** (first-declared) target type only, emitting `E0362` with
`details.expected` the primary type and `details.actual` the target's
class name exactly when the class name differs from the primary type; for
a single-type `Ref[T]` this coincides with membership in the admissible
set; the check recurses into list-of-reference fields. -/
theorem c1_ref_type_check_primary (st : SymbolTable) (f t s i cls : String)
    (ts : List String) (raw : Value) (r : Option Value)
    (hget : st.get s = some (.vblock i cls raw r)) :
    (checkFieldAnnot st f (.refAnnot ⟨t :: ts⟩) (.vstr s)
        = if cls = t then [] else [e0362Diag f t s cls])
    ∧ (ts = [] →
        (checkFieldAnnot st f (.refAnnot ⟨t :: ts⟩) (.vstr s) = []
          ↔ ReferenceMeta.mtch ⟨t :: ts⟩ cls = true))
    ∧ (checkFieldAnnot st f (.listOf (.refAnnot ⟨t :: ts⟩)) (.vlist [.vstr s])
        = checkFieldAnnot st f (.refAnnot ⟨t :: ts⟩) (.vstr s))
    ∧ (e0362Diag f t s cls).details.lookup "expected" = some (.s t)
    ∧ (e0362Diag f t s cls).details.lookup "actual" = some (.s cls) := by
  have hmain : checkFieldAnnot st f (.refAnnot ⟨t :: ts⟩) (.vstr s)
      = if cls = t then [] else [e0362Diag f t s cls] := by
    simp only [checkFieldAnnot, ReferenceMeta.targetType, List.head?, hget]
    by_cases h : cls = t
    · simp [h]
    · simp [h]
  refine ⟨hmain, ?_, ?_, rfl, rfl⟩
  · intro hts
    subst hts
    rw [hmain]
    by_cases h : cls = t
    · simp [h, ReferenceMeta.mtch]
    · simp [h, ReferenceMeta.mtch, e0362Diag]
  · simp only [checkFieldAnnot, checkFieldList, List.append_nil]

/-- C1 (witness): the amended check applied at a single-type `Ref["User"]`
field whose target is a `User` entity — no diagnostic, matching
admissible-set membership. -/
theorem c1_ref_type_check_witness :
    checkFieldAnnot ⟨[("carol", .vblock "carol" "User" (.vdict []) none)], [], []⟩
      "owner" (.refAnnot ⟨["User"]⟩) (.vstr "carol") = [] := by
  have h := c1_ref_type_check_primary
    ⟨[("carol", .vblock "carol" "User" (.vdict []) none)], [], []⟩
    "owner" "User" "carol" "carol" "User" [] (.vdict []) none rfl
  simpa using h.1

/-! ## Claim C3: cycle diagnosis -/

/-- C3: when the `former` edges form a cycle, global validation emits
exactly one diagnostic — an `E0342` whose `details.cycle` holds the cycle
path — and no `E0341` diagnostics at all (resolution never starts). -/
theorem c3_cycle_single_diagnostic (st : SymbolTable) (registry : ModelRegistry)
    (entities : List EntityBlock) (cyc : List String)
    (h : topologicalSort (buildGraph st entities) = .error cyc) :
    validate st registry entities = [cycleDiag cyc]
    ∧ ((validate st registry entities).filter (fun d => d.code = .E0342)).length = 1
    ∧ (∀ d ∈ validate st registry entities, d.code ≠ .E0341)
    ∧ (cycleDiag cyc).details.lookup "cycle" = some (.slist cyc)
    ∧ (cycleDiag cyc).code = .E0342 := by
  have hv : validate st registry entities = [cycleDiag cyc] := by
    unfold validate
    rw [h]
  refine ⟨hv, ?_, ?_, rfl, rfl⟩
  · rw [hv]
    simp [cycleDiag]
  · rw [hv]
    intro d hd
    simp only [List.mem_singleton] at hd
    subst hd
    simp [cycleDiag]

/-- C3 (witness): two entities whose `former` pointers reference each
other produce the single cycle diagnostic naming `A -> B -> A`. -/
theorem c3_cycle_witness :
    validate
      ⟨[("A", .vblock "A" "Doc" (.vdict []) none),
        ("B", .vblock "B" "Doc" (.vdict []) none)], [], []⟩
      []
      [⟨"A", "Doc", ["[[B]]"], .vdict []⟩, ⟨"B", "Doc", ["[[A]]"], .vdict []⟩]
      = [cycleDiag ["A", "B", "A"]] :=
  (c3_cycle_single_diagnostic
    ⟨[("A", .vblock "A" "Doc" (.vdict []) none),
      ("B", .vblock "B" "Doc" (.vdict []) none)], [], []⟩
    []
    [⟨"A", "Doc", ["[[B]]"], .vdict []⟩, ⟨"B", "Doc", ["[[A]]"], .vdict []⟩]
    ["A", "B", "A"] (by rfl)).1

/-! ## Claim C8: only error-level diagnostics gate the pipeline -/

/-- C8: `has_errors` is true exactly when some diagnostic has level
`error`; `compile()` fails exactly then; and (with `run_specs` set) the
spec stage is skipped exactly then — diagnostics of level `warning`,
`info` or `hint` never fail a compile. -/
theorem c8_error_level_gates (diags : List Diagnostic) :
    (hasErrors diags = true ↔ ∃ d ∈ diags, d.level = .error)
    ∧ ((compileGate true diags).2 = true ↔ ∀ d ∈ diags, d.level ≠ .error)
    ∧ ((compileGate true diags).1 = true ↔ ∀ d ∈ diags, d.level ≠ .error) := by
  have hh : hasErrors diags = true ↔ ∃ d ∈ diags, d.level = .error := by
    simp [hasErrors, List.any_eq_true]
  refine ⟨hh, ?_, ?_⟩
  · simp only [compileGate]
    constructor
    · intro hb d hd hlev
      have : hasErrors diags = true := hh.2 ⟨d, hd, hlev⟩
      rw [this] at hb
      exact Bool.noConfusion hb
    · intro hall
      cases hcase : hasErrors diags with
      | false => simp
      | true =>
          rcases hh.1 hcase with ⟨d, hd, hlev⟩
          exact absurd hlev (hall d hd)
  · simp only [compileGate, Bool.true_and]
    constructor
    · intro hb d hd hlev
      have : hasErrors diags = true := hh.2 ⟨d, hd, hlev⟩
      rw [this] at hb
      exact Bool.noConfusion hb
    · intro hall
      cases hcase : hasErrors diags with
      | false => simp
      | true =>
          rcases hh.1 hcase with ⟨d, hd, hlev⟩
          exact absurd hlev (hall d hd)

/-! ## Claim C9: the progressive check driver -/

/-- The fail-fast loop executes the passing prefix plus the first failing
stage, if any. -/
theorem runStagesLoop_eq (results : String → Bool) (l : List String) :
    runStagesLoop results l
      = l.takeWhile results ++ (l.dropWhile results).take 1 := by
  induction l with
  | nil => rfl
  | cons s rest ih =>
      by_cases h : results s
      · simp [runStagesLoop, h, List.takeWhile_cons, List.dropWhile_cons, ih]
      · simp [runStagesLoop, h, List.takeWhile_cons, List.dropWhile_cons]

/-- The executed stages all pass exactly when the whole prefix passes. -/
theorem runStagesLoop_all (results : String → Bool) (l : List String) :
    (runStagesLoop results l).all results = l.all results := by
  induction l with
  | nil => rfl
  | cons s rest ih =>
      by_cases h : results s
      · simp [runStagesLoop, h, ih]
      · simp [runStagesLoop, h]

/-- C9: with no overriding flags, the `check` command runs the fixed
stage order `syntax, structure, local, global` up to the requested stage
(the executed list is the passing prefix plus the first failing stage, so
a failure at stage *k* aborts every later stage), exits 0 exactly when
every stage up to the target passes and 1 otherwise; omitting the stage
argument behaves like `local`; an unknown stage exits 2 without running
anything. -/
theorem c9_check_driver (s : String) (results : String → Bool)
    (h : s ∈ checkStages) :
    (checkCommand (some s) false false results).2
        = (checkStages.take (checkStages.indexOf s + 1)).takeWhile results
          ++ ((checkStages.take (checkStages.indexOf s + 1)).dropWhile results).take 1
    ∧ (checkCommand (some s) false false results).1
        = (if (checkStages.take (checkStages.indexOf s + 1)).all results then 0 else 1)
    ∧ checkCommand none false false results
        = checkCommand (some "local") false false results
    ∧ (∀ s2 : String, s2 ∉ checkStages →
        checkCommand (some s2) false false results = (2, [])) := by
  have hcmd : checkCommand (some s) false false results
      = ((if (runStagesLoop results (checkStages.take (checkStages.indexOf s + 1))).all results
            then 0 else 1),
         runStagesLoop results (checkStages.take (checkStages.indexOf s + 1))) := by
    simp [checkCommand, determineTargetStage, h]
  refine ⟨?_, ?_, rfl, ?_⟩
  · rw [hcmd]
    exact runStagesLoop_eq results _
  · rw [hcmd, runStagesLoop_all]
  · intro s2 hs2
    simp [checkCommand, determineTargetStage, hs2]

/-- C9 (witness): requesting `global` on a project whose `local` stage
fails executes `syntax, structure, local` only and exits 1; `check
badstage` exits 2. -/
theorem c9_check_driver_witness :
    (checkCommand (some "global") false false (fun st => st != "local")).2
      = ["syntax", "structure", "local"]
    ∧ (checkCommand (some "global") false false (fun st => st != "local")).1 = 1
    ∧ checkCommand (some "badstage") false false (fun _ => true) = (2, []) := by
  have h := c9_check_driver "global" (fun st => st != "local") (by decide)
  refine ⟨h.1.trans (by decide), (h.2.1).trans (by decide), h.2.2.2 "badstage" (by decide)⟩

/-! ## Claim C7: property-path traversal errors -/

/-- C7 (counterexample): a segment naming a field missing from the
current dict does NOT always raise — a name that collides with a CPython
dict attribute (here `items`) is resolved to the attribute object by the
`hasattr`/`getattr` fallback instead of raising `QueryError E0365`. -/
theorem c7_missing_attr_counterexample :
    traversePropertyPath (.vdict [("email", .vstr "a@x")]) ["items"]
      = .ok (.vhost "dict.items")
    ∧ List.lookup "items" [("email", Value.vstr "a@x")] = none := by
  exact ⟨rfl, rfl⟩

/-- C7 (amended): in property-path traversal, a non-final `*` segment
raises `QueryError` (code `E0365`) while a final `*` returns the
unwrapped payload; a matching segment naming a field absent from the
current dict raises `QueryError E0365` unless the name collides with a
Python attribute of the dict (a dict method or dunder name), in which
case the attribute object is returned instead; and a bracketed index at
or past the length of the named sequence raises `QueryError E0365`. -/
theorem c7_traversal_errors :
    (∀ (cur : Value) (rest : List String), rest ≠ [] →
        resultCode (traversePropertyPath cur ("*" :: rest)) = some .E0365)
    ∧ (∀ cur : Value, traversePropertyPath cur ["*"] = .ok (starUnwrap cur))
    ∧ (∀ (kvs : List (String × Value)) (seg name : String),
        partMatch seg = some (name, none) →
        kvs.lookup name = none →
        pyDictAttrNames.contains name = false →
        resultCode (traversePropertyPath (.vdict kvs) [seg]) = some .E0365)
    ∧ (∀ (kvs : List (String × Value)) (seg name : String),
        partMatch seg = some (name, none) →
        kvs.lookup name = none →
        pyDictAttrNames.contains name = true →
        traversePropertyPath (.vdict kvs) [seg]
          = .ok (.vhost ("dict." ++ name)))
    ∧ (∀ (kvs : List (String × Value)) (seg name : String) (idx : Nat)
        (xs : List Value),
        partMatch seg = some (name, some idx) →
        kvs.lookup name = some (.vlist xs) →
        xs.length ≤ idx →
        resultCode (traversePropertyPath (.vdict kvs) [seg]) = some .E0365) := by
  have hstar : partMatch "*" = none := by decide
  have hnstar : ∀ seg : String, ∀ r, partMatch seg = some r → seg ≠ "*" := by
    intro seg r hseg hcontra
    rw [hcontra, hstar] at hseg
    exact Option.noConfusion hseg
  refine ⟨?_, ?_, ?_, ?_, ?_⟩
  · intro cur rest hrest
    simp [traversePropertyPath, traverseGo, hrest, resultCode, QErr.code]
  · intro cur
    simp [traversePropertyPath, traverseGo]
  · intro kvs seg name hseg hlook hattr
    have hne : seg ≠ "*" := hnstar seg _ hseg
    have hmem : name ∉ pyDictAttrNames := by simpa using hattr
    have hstep : stepName true (.vdict kvs) name = none := by
      simp [stepName, getattrResolvedData, getattrRawData, hlook, pyAttr, hmem]
    simp [traversePropertyPath, traverseGo, hne, hseg, hstep, resultCode, QErr.code]
  · intro kvs seg name hseg hlook hattr
    have hne : seg ≠ "*" := hnstar seg _ hseg
    have hmem : name ∈ pyDictAttrNames := by simpa using hattr
    have hstep : stepName true (.vdict kvs) name
        = some (.vhost ("dict." ++ name)) := by
      simp [stepName, getattrResolvedData, getattrRawData, hlook, pyAttr, hmem]
    simp [traversePropertyPath, traverseGo, hne, hseg, hstep]
  · intro kvs seg name idx xs hseg hlook hlen
    have hne : seg ≠ "*" := hnstar seg _ hseg
    have hstep : stepName true (.vdict kvs) name = some (.vlist xs) := by
      simp [stepName, getattrResolvedData, getattrRawData, hlook, pyAttr]
    have hget : xs[idx]? = none := List.getElem?_eq_none hlen
    simp [traversePropertyPath, traverseGo, hne, hseg, hstep, hget, resultCode, QErr.code]

/-- C7 (witness): the error conditions, the final-`*` unwrap, and the
attribute-collision exception at concrete inputs. -/
theorem c7_traversal_errors_witness :
    resultCode (traversePropertyPath (.vdict []) ["*", "x"]) = some .E0365
    ∧ traversePropertyPath (.vdict [("a", .vint 1)]) ["*"]
        = .ok (starUnwrap (.vdict [("a", .vint 1)]))
    ∧ resultCode (traversePropertyPath (.vdict [("a", .vint 1)]) ["missing"]) = some .E0365
    ∧ traversePropertyPath (.vdict [("a", .vint 1)]) ["keys"]
        = .ok (.vhost "dict.keys")
    ∧ resultCode (traversePropertyPath
        (.vdict [("tags", .vlist [.vstr "a"])]) ["tags[5]"]) = some .E0365 := by
  refine ⟨c7_traversal_errors.1 (.vdict []) ["x"] (by simp),
    c7_traversal_errors.2.1 (.vdict [("a", .vint 1)]),
    c7_traversal_errors.2.2.1 [("a", .vint 1)] "missing" "missing" (by decide) rfl (by decide),
    c7_traversal_errors.2.2.2.1 [("a", .vint 1)] "keys" "keys" (by decide) rfl (by decide),
    c7_traversal_errors.2.2.2.2 [("tags", .vlist [.vstr "a"])] "tags[5]" "tags" 5 [.vstr "a"]
      (by decide) rfl (by decide)⟩

/-! ## Claim C10: the segment pattern gate -/

/-- `takeWhile` over a run that satisfies the predicate followed by a
stopper. -/
theorem takeWhile_run_stop {p : Char → Bool} (l : List Char) (x : Char)
    (r : List Char) (hl : ∀ c ∈ l, p c = true) (hx : p x = false) :
    (l ++ x :: r).takeWhile p = l := by
  induction l with
  | nil => simp [List.takeWhile_cons, hx]
  | cons c cs ih =>
      have hc : p c = true := hl c (by simp)
      simp only [List.cons_append, List.takeWhile_cons, hc, if_true]
      rw [ih (fun d hd => hl d (by simp [hd]))]

/-- `dropWhile` over a run that satisfies the predicate followed by a
stopper. -/
theorem dropWhile_run_stop {p : Char → Bool} (l : List Char) (x : Char)
    (r : List Char) (hl : ∀ c ∈ l, p c = true) (hx : p x = false) :
    (l ++ x :: r).dropWhile p = x :: r := by
  induction l with
  | nil => simp [List.dropWhile_cons, hx]
  | cons c cs ih =>
      have hc : p c = true := hl c (by simp)
      simp only [List.cons_append, List.dropWhile_cons, hc, if_true]
      exact ih (fun d hd => hl d (by simp [hd]))

/-- The anchor-free segment matcher succeeds exactly on the declarative
shape: a non-empty word run, optionally followed by a bracketed
non-empty digit run. -/
theorem partMatchCore_isSome_iff (cs : List Char) :
    (partMatchCore cs).isSome = true ↔ segShapeCore cs := by
  have hdecomp : cs.takeWhile isWordChar ++ cs.dropWhile isWordChar = cs :=
    List.takeWhile_append_dropWhile isWordChar cs
  constructor
  · intro hsome
    unfold partMatchCore at hsome
    by_cases h1 : (cs.takeWhile isWordChar).isEmpty
    · simp [h1] at hsome
    · have hnamene : cs.takeWhile isWordChar ≠ [] := by
        simpa [List.isEmpty_iff] using h1
      have hnameall : ∀ c ∈ cs.takeWhile isWordChar, isWordChar c = true :=
        fun c hc => List.mem_takeWhile_imp hc
      by_cases h2 : (cs.dropWhile isWordChar).isEmpty
      · left
        have hdw : cs.dropWhile isWordChar = [] := by
          simpa [List.isEmpty_iff] using h2
        rw [hdw, List.append_nil] at hdecomp
        exact ⟨by rw [← hdecomp]; exact hnamene,
          fun c hc => hnameall c (by rw [hdecomp]; exact hc)⟩
      · by_cases h3 : headIs '[' (cs.dropWhile isWordChar) = true
        · by_cases h4 : ((cs.dropWhile isWordChar).tail.takeWhile Char.isDigit).isEmpty
          · simp [h1, h2, h3, h4] at hsome
          · by_cases h5 : (cs.dropWhile isWordChar).tail.dropWhile Char.isDigit = [']']
            · right
              have hrestne : cs.dropWhile isWordChar ≠ [] := by
                simpa [List.isEmpty_iff] using h2
              have hrest : cs.dropWhile isWordChar
                  = '[' :: (cs.dropWhile isWordChar).tail := by
                cases hcase : cs.dropWhile isWordChar with
                | nil => exact absurd hcase hrestne
                | cons d r =>
                    rw [hcase] at h3
                    simp [headIs] at h3
                    rw [h3]
                    simp
              have htail : (cs.dropWhile isWordChar).tail.takeWhile Char.isDigit
                    ++ (cs.dropWhile isWordChar).tail.dropWhile Char.isDigit
                  = (cs.dropWhile isWordChar).tail :=
                List.takeWhile_append_dropWhile Char.isDigit (cs.dropWhile isWordChar).tail
              refine ⟨cs.takeWhile isWordChar,
                (cs.dropWhile isWordChar).tail.takeWhile Char.isDigit,
                hnamene, hnameall, by simpa [List.isEmpty_iff] using h4,
                fun c hc => List.mem_takeWhile_imp hc, ?_⟩
              rw [h5] at htail
              conv_lhs => rw [← hdecomp, hrest]
              rw [htail]
            · simp [h1, h2, h3, h4, h5] at hsome
        · simp [h1, h2, h3] at hsome
  · intro hshape
    rcases hshape with ⟨hne, hall⟩ | ⟨name, ds, hnne, hnall, hdne, hdall, heq⟩
    · unfold partMatchCore
      have ht : cs.takeWhile isWordChar = cs := List.takeWhile_eq_self_iff.2 hall
      have hd : cs.dropWhile isWordChar = [] := List.dropWhile_eq_nil_iff.2 hall
      simp [ht, hd, List.isEmpty_iff, hne]
    · unfold partMatchCore
      have hwb : isWordChar '[' = false := by decide
      have ht : cs.takeWhile isWordChar = name := by
        rw [heq]; exact takeWhile_run_stop name '[' _ hnall hwb
      have hd : cs.dropWhile isWordChar = '[' :: (ds ++ [']']) := by
        rw [heq]; exact dropWhile_run_stop name '[' _ hnall hwb
      have hdb : Char.isDigit ']' = false := by decide
      have htd : (ds ++ [']']).takeWhile Char.isDigit = ds := by
        have h0 : (ds ++ (']' : Char) :: []).takeWhile Char.isDigit = ds :=
          takeWhile_run_stop ds ']' [] hdall hdb
        simpa using h0
      have hdd : (ds ++ [']']).dropWhile Char.isDigit = [']'] := by
        have h0 : (ds ++ (']' : Char) :: []).dropWhile Char.isDigit = (']' : Char) :: [] :=
          dropWhile_run_stop ds ']' [] hdall hdb
        simpa using h0
      simp [ht, hd, htd, hdd, headIs, List.isEmpty_iff, hnne, hdne]


/-- A character list in the declarative shape never ends in a newline. -/
theorem segShapeCore_no_trailing_nl {t : List Char} (h : segShapeCore t) :
    t.getLast? ≠ some '\n' := by
  intro hlast
  have hmem : '\n' ∈ t := List.mem_of_mem_getLast? hlast
  rcases h with ⟨-, hall⟩ | ⟨name, ds, -, -, -, -, heq⟩
  · have := hall '\n' hmem
    simp [isWordChar] at this
  · rw [heq] at hlast
    have hconcat : name ++ '[' :: (ds ++ [']']) = (name ++ '[' :: ds) ++ [']'] := by
      simp
    rw [hconcat, List.getLast?_concat] at hlast
    simp at hlast

/-- Dropping the trailing newline is the identity on lists that do not
end in one. -/
theorem dropTrailingNl_no_nl {cs : List Char} (h : cs.getLast? ≠ some '\n') :
    dropTrailingNl cs = cs := by
  unfold dropTrailingNl
  rw [if_neg h]

/-- Dropping the trailing newline of a newline-terminated list. -/
theorem dropTrailingNl_concat (t : List Char) :
    dropTrailingNl (t ++ ['\n']) = t := by
  unfold dropTrailingNl
  rw [List.getLast?_concat, if_pos rfl, List.dropLast_concat]

/-- The full matcher (with the `$` anchor's newline tolerance) succeeds
exactly on the newline-tolerant declarative shape. -/
theorem partMatch_isSome_iff_segShapeNl (s : String) :
    (partMatch s).isSome = true ↔ segShapeNl s := by
  unfold partMatch
  constructor
  · intro hsome
    have hcore : segShapeCore (dropTrailingNl s.data) :=
      (partMatchCore_isSome_iff (dropTrailingNl s.data)).1 hsome
    by_cases hnl : s.data.getLast? = some '\n'
    · have hne : s.data ≠ [] := by
        intro h0
        rw [h0] at hnl
        simp at hnl
      have hlast : s.data.getLast hne = '\n' := by
        have h1 := List.getLast?_eq_getLast s.data hne
        rw [hnl] at h1
        exact (Option.some.injEq _ _ ▸ h1).symm
      have hsplit : s.data = s.data.dropLast ++ ['\n'] := by
        conv_lhs => rw [← List.dropLast_append_getLast hne]
        rw [hlast]
      refine ⟨s.data.dropLast, Or.inr hsplit, ?_⟩
      have hdl : dropTrailingNl s.data = s.data.dropLast := by
        unfold dropTrailingNl
        rw [if_pos hnl]
      rwa [hdl] at hcore
    · exact ⟨s.data, Or.inl rfl, by
        rwa [dropTrailingNl_no_nl hnl] at hcore⟩
  · rintro ⟨t, hdata | hdata, hcore⟩
    · rw [hdata, dropTrailingNl_no_nl (segShapeCore_no_trailing_nl hcore)]
      exact (partMatchCore_isSome_iff t).2 hcore
    · rw [hdata, dropTrailingNl_concat]
      exact (partMatchCore_isSome_iff t).2 hcore

/-- Any path containing a segment that is neither `*` nor in the shape of
`PART_PATTERN` makes the traversal fail, whatever the data. -/
theorem traverseGo_bad_segment (s : String)
    (hstar : s ≠ "*") (hmatch : partMatch s = none) :
    ∀ (path : List String) (first : Bool) (cur : Value), s ∈ path →
      resultCode (traverseGo first cur path) = some .E0365 := by
  intro path
  induction path with
  | nil => intro first cur hmem; exact absurd hmem (by simp)
  | cons p rest ih =>
      intro first cur hmem
      by_cases hp : p = "*"
      · have hrest : rest ≠ [] := by
          intro hcontra
          rw [hcontra] at hmem
          simp [hp] at hmem
          exact hstar hmem
        simp [traverseGo, hp, hrest, resultCode, QErr.code]
      · cases hpm : partMatch p with
        | none => simp [traverseGo, hp, hpm, resultCode, QErr.code]
        | some nameIdx =>
            have hmem2 : s ∈ rest := by
              rcases List.mem_cons.1 hmem with hs | hs
              · exfalso
                rw [hs] at hmatch
                rw [hmatch] at hpm
                exact Option.noConfusion hpm
              · exact hs
            rcases nameIdx with ⟨name, idx?⟩
            simp only [traverseGo, hp, if_false, hpm]
            cases hstep : stepName first cur name with
            | none => simp [resultCode, QErr.code]
            | some v =>
                cases idx? with
                | none => simpa using ih false v hmem2
                | some idx =>
                    cases v with
                    | vlist xs =>
                        cases hget : xs[idx]? with
                        | some w => simpa [hget] using ih false w hmem2
                        | none => simp [hget, resultCode, QErr.code]
                    | vnone => simp [resultCode, QErr.code]
                    | vbool b => simp [resultCode, QErr.code]
                    | vint n => simp [resultCode, QErr.code]
                    | vstr t => simp [resultCode, QErr.code]
                    | vdict kvs => simp [resultCode, QErr.code]
                    | vblock i c raw r => simp [resultCode, QErr.code]
                    | vhost d => simp [resultCode, QErr.code]

/-- C10 (counterexample): a segment with one trailing newline, such as
`abc\n`, is outside the claimed word-run shape, yet Python's `$` anchor
lets `PART_PATTERN` match it (the match group is `abc`), so the traversal
resolves the field instead of raising `QueryError E0365`. -/
theorem c10_trailing_newline_counterexample :
    partMatch "abc\n" = some ("abc", none)
    ∧ traversePropertyPath (.vdict [("abc", .vint 1)]) ["abc\n"] = .ok (.vint 1)
    ∧ ¬ segShape "abc\n" := by
  refine ⟨by decide, rfl, ?_⟩
  intro h
  exact segShapeCore_no_trailing_nl h (by decide)

/-- C10 (amended): every path segment other than a bare final `*` must
match `^(\w+)(?:\[(\d+)\])?$` — a non-empty word run with an optional
bracketed digit index, where Python's `$` also tolerates exactly one
trailing newline; a query containing any segment outside this
newline-tolerant shape (a dash, a slash, a negative index, …) raises
`QueryError E0365` regardless of the data being traversed, even when a
field of exactly that name exists. -/
theorem c10_segment_pattern_gate :
    (∀ s : String, partMatch s = none ↔ ¬ segShapeNl s)
    ∧ (∀ (cur : Value) (path : List String) (s : String),
        s ∈ path → s ≠ "*" → partMatch s = none →
        resultCode (traversePropertyPath cur path) = some .E0365) := by
  constructor
  · intro s
    rw [← partMatch_isSome_iff_segShapeNl s]
    cases partMatch s <;> simp
  · intro cur path s hmem hstar hmatch
    exact traverseGo_bad_segment s hstar hmatch path true cur hmem

/-- C10 (witness): the segment `my-field` is outside the pattern shape,
and traversing it fails even on a dict that has precisely that key. -/
theorem c10_segment_pattern_gate_witness :
    resultCode (traversePropertyPath
      (.vdict [("my-field", .vint 7)]) ["my-field"]) = some .E0365
    ∧ partMatch "my-field" = none := by
  have h2 : partMatch "my-field" = none := by decide
  exact ⟨c10_segment_pattern_gate.2 (.vdict [("my-field", .vint 7)]) ["my-field"]
    "my-field" (by simp) (by decide) h2, h2⟩

/-! ## Claim C2: resolution fallback -/

/-- Every diagnostic of the `Ref[T]` field check is an `E0362`. -/
theorem checkFieldAnnot_code (a : Annot) :
    ∀ (st : SymbolTable) (f : String) (v : Value) (d : Diagnostic),
      d ∈ checkFieldAnnot st f a v → d.code = .E0362 := by
  induction a with
  | plain =>
      intro st f v d hd
      simp [checkFieldAnnot] at hd
  | refAnnot meta =>
      intro st f v d hd
      unfold checkFieldAnnot at hd
      split at hd
      · simp at hd
      · split at hd
        · split at hd
          · split at hd
            · simp at hd
              rw [hd]
              rfl
            · simp at hd
          · simp at hd
        · simp at hd
  | listOf elem ih =>
      intro st f v d hd
      unfold checkFieldAnnot at hd
      have hlist : ∀ (xs : List Value) (d2 : Diagnostic),
          d2 ∈ checkFieldList st f elem xs → d2.code = .E0362 := by
        intro xs
        induction xs with
        | nil => intro d2 hd2; simp [checkFieldList] at hd2
        | cons x rest ihx =>
            intro d2 hd2
            unfold checkFieldList at hd2
            rcases List.mem_append.1 hd2 with hx | hx
            · exact ih st f x d2 hx
            · exact ihx d2 hx
      split at hd <;>
        first
          | exact hlist _ d hd
          | simp at hd

/-- Every diagnostic of the semantic type check is an `E0362`. -/
theorem checkSemanticTypes_code (st : SymbolTable) (fields : List (String × Annot))
    (rd : Value) (d : Diagnostic) (hd : d ∈ checkSemanticTypes st fields rd) :
    d.code = .E0362 := by
  unfold checkSemanticTypes at hd
  split at hd
  · rename_i kvs
    have aux : ∀ (fs : List (String × Annot)) (acc : List Diagnostic),
        (∀ d2 ∈ acc, d2.code = .E0362) →
        ∀ d2 ∈ fs.foldl (fun acc fa =>
          match kvs.lookup fa.1 with
          | some v => if pyTruthy v then acc ++ checkFieldAnnot st fa.1 fa.2 v else acc
          | none => acc) acc, d2.code = .E0362 := by
      intro fs
      induction fs with
      | nil =>
          intro acc hacc d2 hd2
          exact hacc d2 hd2
      | cons fa rest ihf =>
          intro acc hacc d2 hd2
          simp only [List.foldl_cons] at hd2
          refine ihf _ ?_ d2 hd2
          cases hl : kvs.lookup fa.1 with
          | none => simpa [hl] using hacc
          | some v =>
              by_cases ht : pyTruthy v
              · simp only [hl, ht, if_true]
                intro d3 hd3
                rcases List.mem_append.1 hd3 with h3 | h3
                · exact hacc d3 h3
                · exact checkFieldAnnot_code fa.2 st fa.1 v d3 h3
              · simpa [hl, ht] using hacc
    exact aux fields [] (by simp) d hd
  · simp at hd

/-- Every diagnostic of the `former` check is an `E0343`. -/
theorem formerCheck_code (st : SymbolTable) (d0 : Value) (d : Diagnostic)
    (hd : d ∈ formerCheck st d0) : d.code = .E0343 := by
  unfold formerCheck at hd
  split at hd
  · split at hd
    · split at hd
      · simp at hd
      · simp at hd
        rw [hd]
        rfl
    · simp at hd
  · simp at hd

/-- C2: for every entity, if reference resolution of the desugared data
succeeds the substituted payload is stored as `resolved_data` and no
`E0341` is recorded; if it fails, an `E0341` diagnostic is recorded and
`resolved_data` is filled with the unresolved desugared raw data as a
fallback. -/
theorem c2_resolved_data_fallback (st : SymbolTable) (registry : ModelRegistry)
    (e : EntityBlock) :
    (∀ r : Value, evaluateData st (desugar e.rawData) = .ok r →
        (resolveEntity st registry e).2 = r
        ∧ ∀ d ∈ (resolveEntity st registry e).1, d.code ≠ .E0341)
    ∧ (∀ err : QErr, evaluateData st (desugar e.rawData) = .error err →
        (resolveEntity st registry e).2 = desugar e.rawData
        ∧ e0341Diag err ∈ (resolveEntity st registry e).1
        ∧ (e0341Diag err).code = .E0341) := by
  constructor
  · intro r hr
    unfold resolveEntity
    rw [hr]
    refine ⟨rfl, ?_⟩
    intro d hd
    simp only at hd
    rcases List.mem_append.1 hd with h | h
    · rw [formerCheck_code st _ d h]
      intro hcontra
      exact ECode.noConfusion hcontra
    · have : d.code = .E0362 := by
        rcases hreg : registry.lookup e.className with _ | fields
        · rw [hreg] at h
          simp at h
        · rw [hreg] at h
          exact checkSemanticTypes_code st fields r d h
      rw [this]
      intro hcontra
      exact ECode.noConfusion hcontra
  · intro err herr
    unfold resolveEntity
    rw [herr]
    exact ⟨rfl, by simp, rfl⟩

/-- C2 (witness): an entity whose data holds the unresolvable exact
reference `[[ghost]]` gets the `E0341` diagnostic and keeps the
desugared raw data. -/
theorem c2_resolved_data_fallback_witness :
    (resolveEntity ⟨[], [], []⟩ [] ⟨"e1", "Note", [], .vdict [("friend", .vstr "[[ghost]]")]⟩).2
      = desugar (.vdict [("friend", .vstr "[[ghost]]")])
    ∧ e0341Diag (.referenceError "Reference not found: 'ghost'")
        ∈ (resolveEntity ⟨[], [], []⟩ [] ⟨"e1", "Note", [], .vdict [("friend", .vstr "[[ghost]]")]⟩).1 := by
  have h := (c2_resolved_data_fallback ⟨[], [], []⟩ []
    ⟨"e1", "Note", [], .vdict [("friend", .vstr "[[ghost]]")]⟩).2
    (.referenceError "Reference not found: 'ghost'") (by rfl)
  exact ⟨h.1, h.2.1⟩

/-! ## Claim C4: string interpolation -/

/-- `String.append` concatenates the underlying character lists. -/
theorem string_data_append (a b : String) : (a ++ b).data = a.data ++ b.data := rfl

/-- The character facts packed in `cleanPiece`. -/
theorem cleanPiece_chars {x : String} (hx : cleanPiece x = true) :
    ∀ c ∈ x.data, c ≠ '[' ∧ c ≠ ']' ∧ c ≠ '\n' := by
  intro c hc
  have h2 := (List.all_eq_true.1 hx) c hc
  simp only [Bool.and_eq_true, decide_eq_true_eq] at h2
  exact ⟨h2.1.1, h2.1.2, h2.2⟩

/-- `findClose` stops at the first `]]` when the preceding characters
contain no closer and no newline. -/
theorem findClose_append (q r : List Char) (hq : ∀ c ∈ q, c ≠ ']' ∧ c ≠ '\n') :
    findClose (q ++ ']' :: ']' :: r) = some (q, r) := by
  induction q with
  | nil => simp [findClose]
  | cons c q' ih =>
      have hc := hq c (by simp)
      have ih2 := ih (fun d hd => hq d (by simp [hd]))
      simp [findClose, hc.1, hc.2, ih2]

/-- `subGo` copies a bracket-free literal unchanged, consuming one unit
of fuel per character. -/
theorem subGo_lit (repl : String → String) (lit rest : List Char) (fuel : Nat)
    (hlit : ∀ c ∈ lit, c ≠ '[') (hfuel : lit.length ≤ fuel) :
    subGo repl fuel (lit ++ rest) = lit ++ subGo repl (fuel - lit.length) rest := by
  induction lit generalizing fuel with
  | nil => simp
  | cons c lit' ih =>
      cases fuel with
      | zero => exact absurd hfuel (by simp)
      | succ f =>
          have hc : c ≠ '[' := hlit c (by simp)
          simp only [List.cons_append, subGo, hc, if_false, List.append_eq]
          rw [ih f (fun d hd => hlit d (List.mem_cons_of_mem c hd)) (by simpa using hfuel)]
          simp [Nat.succ_sub_succ]

/-- `subGo` consumes one `[[q]]` occurrence whose inner text is clean,
emitting the replacer's output. -/
theorem subGo_ref_step (repl : String → String) (q rest : List Char) (fuel : Nat)
    (hq : ∀ c ∈ q, c ≠ ']' ∧ c ≠ '\n') :
    subGo repl (fuel + 1) ('[' :: '[' :: (q ++ ']' :: ']' :: rest))
      = (repl ⟨q⟩).data ++ subGo repl fuel rest := by
  simp [subGo, findClose_append q rest hq]

/-- `hasRefGo` skips a bracket-free literal, consuming one unit of fuel
per character. -/
theorem hasRefGo_lit (lit rest : List Char) (fuel : Nat)
    (hlit : ∀ c ∈ lit, c ≠ '[') (hfuel : lit.length ≤ fuel) :
    hasRefGo fuel (lit ++ rest) = hasRefGo (fuel - lit.length) rest := by
  induction lit generalizing fuel with
  | nil => simp
  | cons c lit' ih =>
      cases fuel with
      | zero => exact absurd hfuel (by simp)
      | succ f =>
          have hc : c ≠ '[' := hlit c (by simp)
          simp only [List.cons_append, hasRefGo, hc, if_false, List.append_eq]
          rw [ih f (fun d hd => hlit d (List.mem_cons_of_mem c hd)) (by simpa using hfuel)]
          simp [Nat.succ_sub_succ]

/-- A clean-inner `[[q]]` occurrence makes `hasRefGo` succeed. -/
theorem hasRefGo_ref (q rest : List Char) (fuel : Nat)
    (hq : ∀ c ∈ q, c ≠ ']' ∧ c ≠ '\n') :
    hasRefGo (fuel + 1) ('[' :: '[' :: (q ++ ']' :: ']' :: rest)) = true := by
  simp [hasRefGo, findClose_append q rest hq]

/-- The byte-level form of an assembled mixed text. -/
theorem mixedText_data (lit q : String) (rest : List (String × String)) (tail : String) :
    (mixedText ((lit, q) :: rest) tail).data
      = lit.data ++ '[' :: '[' :: (q.data ++ ']' :: ']' :: (mixedText rest tail).data) := by
  show (lit ++ "[[" ++ q ++ "]]" ++ mixedText rest tail).data = _
  simp [string_data_append]

/-- `subGo` with enough fuel splices an assembled mixed text piecewise:
each literal passes through, each occurrence is replaced independently. -/
theorem subGo_mixed (st : SymbolTable) (parts : List (String × String)) (tail : String)
    (fuel : Nat)
    (hparts : ∀ p ∈ parts, cleanPiece p.1 = true ∧ cleanPiece p.2 = true)
    (htail : cleanPiece tail = true)
    (hfuel : (mixedText parts tail).data.length ≤ fuel) :
    subGo (interpolationReplacer st) fuel (mixedText parts tail).data
      = (splicedText st parts tail).data := by
  induction parts generalizing fuel with
  | nil =>
      have h := subGo_lit (interpolationReplacer st) tail.data [] fuel
        (fun c hc => (cleanPiece_chars htail c hc).1) (by simpa [mixedText] using hfuel)
      simp only [List.append_nil] at h
      show subGo (interpolationReplacer st) fuel tail.data = tail.data
      rw [h]
      simp [subGo]
  | cons p rest ih =>
      rcases p with ⟨lit, q⟩
      have hlit : cleanPiece lit = true := (hparts (lit, q) (by simp)).1
      have hq : cleanPiece q = true := (hparts (lit, q) (by simp)).2
      rw [mixedText_data] at hfuel ⊢
      have hlen : lit.data.length
            + (q.data.length + (mixedText rest tail).data.length + 4)
          ≤ fuel := by
        have h0 := hfuel
        simp only [List.length_append, List.length_cons] at h0
        omega
      rw [subGo_lit (interpolationReplacer st) lit.data _ fuel
        (fun c hc => (cleanPiece_chars hlit c hc).1) (by omega)]
      have hsub : ∃ f : Nat, fuel - lit.data.length = f + 1
          ∧ (mixedText rest tail).data.length ≤ f := by
        refine ⟨fuel - lit.data.length - 1, by omega, by omega⟩
      rcases hsub with ⟨f, hf1, hf2⟩
      rw [hf1]
      rw [subGo_ref_step (interpolationReplacer st) q.data _ f
        (fun c hc => ⟨(cleanPiece_chars hq c hc).2.1, (cleanPiece_chars hq c hc).2.2⟩)]
      rw [ih f (fun p hp => hparts p (List.mem_cons_of_mem _ hp)) hf2]
      show _ = ((lit ++ interpolationReplacer st q ++ splicedText st rest tail) : String).data
      simp [string_data_append]

/-- Every assembled mixed text ends with its tail literal. -/
theorem mixedText_tail_suffix (parts : List (String × String)) (tail : String) :
    ∃ pre : List Char, (mixedText parts tail).data = pre ++ tail.data := by
  induction parts with
  | nil => exact ⟨[], by simp [mixedText]⟩
  | cons p rest ihp =>
      rcases ihp with ⟨pre, hpre⟩
      rcases p with ⟨lit, q⟩
      refine ⟨lit.data ++ '[' :: '[' :: (q.data ++ ']' :: ']' :: pre), ?_⟩
      rw [mixedText_data, hpre]
      simp

/-- An assembled mixed text that does not begin with a literal `[[` or
does not end with `]]` is not an exact reference. -/
theorem refFullmatch_mixed_none (parts : List (String × String)) (tail : String)
    (hparts : ∀ p ∈ parts, cleanPiece p.1 = true ∧ cleanPiece p.2 = true)
    (htail : cleanPiece tail = true)
    (hmixed : (parts.headD ("", "")).1 ≠ "" ∨ tail ≠ "") :
    refFullmatch (mixedText parts tail) = none := by
  unfold refFullmatch
  rcases hmixed with hfirst | htne
  · cases parts with
    | nil =>
        exfalso
        exact hfirst rfl
    | cons p rest =>
        rcases p with ⟨lit, q⟩
        have hlitne : lit.data ≠ [] := by
          intro hcontra
          apply hfirst
          show lit = ""
          cases lit with
          | mk l => simp at hcontra; simp [hcontra]
        cases hl : lit.data with
        | nil => exact absurd hl hlitne
        | cons c cs =>
            have hc : c ≠ '[' := by
              have := cleanPiece_chars (hparts (lit, q) (by simp)).1 c (by rw [hl]; simp)
              exact this.1
            rw [mixedText_data, hl]
            rw [if_neg]
            simp only [Bool.and_eq_true, decide_eq_true_eq, List.cons_append,
              listIsInit]
            rintro ⟨⟨⟨-, h2⟩, -⟩, -⟩
            exact hc h2.1.symm
  · have htdne : tail.data ≠ [] := by
      intro hcontra
      apply htne
      cases tail with
      | mk l => simp at hcontra; simp [hcontra]
    rcases List.eq_nil_or_concat tail.data with hnil | ⟨l2, c, hconcat⟩
    · exact absurd hnil htdne
    · have hc : c ≠ ']' := by
        have := cleanPiece_chars htail c (by rw [hconcat]; simp)
        exact this.2.1
      rcases mixedText_tail_suffix parts tail with ⟨pre, hpre⟩
      have hrev : (mixedText parts tail).data.reverse
          = c :: (l2.reverse ++ pre.reverse) := by
        rw [hpre, hconcat]
        simp
      rw [if_neg]
      simp only [Bool.and_eq_true, decide_eq_true_eq]
      rintro ⟨⟨⟨-, -⟩, h3⟩, -⟩
      rw [hrev] at h3
      simp [listIsInit] at h3
      exact hc h3.1.symm

/-- C4 (counterexample): in a mixed string a failing occurrence is left
intact, but NO diagnostic is emitted — the replacer swallows the failure
(`resolve_string` returns normally, and an entity carrying the string
resolves with an empty diagnostic list); moreover a mixed string that
happens to begin with `[[` and end with `]]` is not spliced at all: it is
taken as one exact reference and raises. -/
theorem c4_interpolation_counterexample :
    resolveString ⟨[("name", .vstr "Alice")], [], []⟩ "Hello [[name]]! See [[missing]]."
      = .ok (.vstr "Hello Alice! See [[missing]].")
    ∧ (resolveEntity ⟨[("name", .vstr "Alice")], [], []⟩ []
        ⟨"e1", "Note", [], .vdict [("text", .vstr "Hello [[name]]! See [[missing]].")]⟩).1 = []
    ∧ resolveString ⟨[], [], []⟩ "[[a]] x [[b]]"
      = .error (.referenceError "Reference not found: 'a]] x [[b'") := by
  exact ⟨rfl, rfl, rfl⟩

/-- C4 (amended): when the query engine resolves a string assembled from
literal text and `[[…]]` occurrences (and the string is not itself
bracket-delimited, which would make it a single exact reference), each
occurrence is individually resolved, stringified and spliced into the
result; an occurrence that fails to resolve leaves the original `[[…]]`
text intact in the output, and no diagnostic is emitted for it. -/
theorem c4_interpolation_spliced (st : SymbolTable) (parts : List (String × String))
    (tail : String)
    (hparts : ∀ p ∈ parts, cleanPiece p.1 = true ∧ cleanPiece p.2 = true)
    (htail : cleanPiece tail = true)
    (hne : parts ≠ [])
    (hmixed : (parts.headD ("", "")).1 ≠ "" ∨ tail ≠ "") :
    resolveString st (mixedText parts tail)
      = .ok (.vstr (splicedText st parts tail)) := by
  unfold resolveString
  rw [refFullmatch_mixed_none parts tail hparts htail hmixed]
  have hhas : hasRef (mixedText parts tail) = true := by
    cases parts with
    | nil => exact absurd rfl hne
    | cons p rest =>
        rcases p with ⟨lit, q⟩
        have hq : cleanPiece q = true := (hparts (lit, q) (by simp)).2
        have hql : ∀ c ∈ q.data, c ≠ ']' ∧ c ≠ '\n' := fun c hc =>
          ⟨(cleanPiece_chars hq c hc).2.1, (cleanPiece_chars hq c hc).2.2⟩
        unfold hasRef
        rw [mixedText_data]
        have hlen : (lit.data ++ '[' :: '[' :: (q.data ++ ']' :: ']'
              :: (mixedText rest tail).data)).length
            = lit.data.length
              + ((q.data.length + (mixedText rest tail).data.length + 3) + 1) := by
          simp only [List.length_append, List.length_cons]
          omega
        rw [hasRefGo_lit lit.data _ _
          (fun c hc => (cleanPiece_chars (hparts (lit, q) (by simp)).1 c hc).1)
          (by rw [hlen]; omega)]
        rw [hlen]
        have harith : lit.data.length
              + (q.data.length + (mixedText rest tail).data.length + 3 + 1)
              - lit.data.length
            = (q.data.length + (mixedText rest tail).data.length + 3) + 1 := by omega
        rw [harith]
        exact hasRefGo_ref q.data _ _ hql
  rw [hhas]
  simp only [if_true]
  rw [subGo_mixed st parts tail _ hparts htail (Nat.le_refl _)]

/-- C4 (witness): the splicing law at a concrete two-occurrence string in
which the first occurrence resolves and the second fails. -/
theorem c4_interpolation_spliced_witness :
    resolveString ⟨[("name", .vstr "Alice")], [], []⟩ "Hello [[name]] and [[missing]]!"
      = .ok (.vstr "Hello Alice and [[missing]]!") := by
  have h := c4_interpolation_spliced ⟨[("name", .vstr "Alice")], [], []⟩
    [("Hello ", "name"), (" and ", "missing")] "!"
    (by decide) (by decide) (by simp) (Or.inl (by decide))
  exact h
